import Mathlib

/-!
# Elrond hardware-wallet binding: APDU framing (src/src/Elrond.js)

A shallow embedding of the three methods of the class `Elrond`.

* A Node `Buffer` is a list of byte values.  The `Buffer` methods the source
  calls (`alloc`, `writeInt8`, `writeUInt32BE`, `copy`, `slice`, `toString`)
  are embedded with the range checks Node performs: a value or an offset
  outside the accepted range raises a `RangeError`.
* JavaScript numbers that occur in the source are integers; they are `Int`
  where the source can make them negative (`150 - 1 - bipPath.length * 4`)
  and `Nat` otherwise.  `undefined`/`NaN` is `none`.
* `BIPPath.fromString(path).toPathArray()` and `Buffer.from(rawTxHex, "hex")`
  are library calls; the operations take their results (`bipPath`, `rawTx`).
* The transport is a function of the packets already handed to it during the
  call and of the packet being sent; every method returns the list of packets
  it handed to the transport together with its outcome.
* The `while` loop of `signTransaction` is a fuel-indexed function; the method
  itself runs it with `rawTx.length + 1` units of fuel, which is shown to be
  enough.
-/

namespace Elrond

/-- A Node `Buffer`: a sequence of bytes. -/
abbrev Buffer := List Nat

/-- The exceptions a call can end with: a `RangeError` raised by a `Buffer`
method, or the failure `transport.send` rejected with. -/
inductive JsError where
  | rangeError
  | transport (code : Nat)
deriving DecidableEq

/-- One command packet, the five arguments of `transport.send`. -/
structure Apdu where
  cla : Nat
  ins : Nat
  p1 : Nat
  p2 : Nat
  data : Buffer
deriving DecidableEq

/-- The transport: given the packets already handed to it in this call and the
packet to send, it answers with the response bytes or fails with a code. -/
abbrev Transport := List Apdu → Apdu → Except Nat Buffer

/-- Node `Buffer.alloc(size)`: `size` zero bytes; a negative size is rejected
(the upper limit on buffer sizes is left out). -/
def alloc (size : Int) : Except JsError Buffer :=
  if size < 0 then .error .rangeError else .ok (List.replicate size.toNat 0)

/-- Overwrite `bytes.length` bytes of `buf` starting at `offset` (the caller has
checked that they fit). -/
def setBytes (buf : Buffer) (offset : Nat) (bytes : List Nat) : Buffer :=
  buf.take offset ++ bytes ++ buf.drop (offset + bytes.length)

/-- Node `buf.writeInt8(value, offset)`: `value` must be a signed 8-bit integer
(`-128 ≤ value ≤ 127`) and `offset` must lie inside the buffer, otherwise a
`RangeError` is thrown (Node checks `value > max || value < min` with
`max = 0x7f`, and so does the `buffer` package browsers use); the byte stored is
`value` in two-complement form. -/
def writeInt8 (buf : Buffer) (value : Int) (offset : Nat) : Except JsError Buffer :=
  if value < -128 ∨ 127 < value then .error .rangeError
  else if buf.length < offset + 1 then .error .rangeError
  else .ok (setBytes buf offset [(value % 256).toNat])

/-- Node `buf.writeUInt32BE(value, offset)`: `value` must be an unsigned 32-bit
integer and the four bytes must fit, otherwise Node throws a `RangeError`; the
bytes are stored most significant first. -/
def writeUInt32BE (buf : Buffer) (value : Nat) (offset : Nat) : Except JsError Buffer :=
  if 4294967295 < value then .error .rangeError
  else if buf.length < offset + 4 then .error .rangeError
  else .ok (setBytes buf offset
    [value / 16777216 % 256, value / 65536 % 256, value / 256 % 256, value % 256])

/-- Node `source.copy(target, targetStart, sourceStart, sourceEnd)`, returning the
target after the copy, in the order of the checks of Node: a negative argument
is rejected; nothing is copied when `targetStart` is past the target or the
range is empty; a `sourceStart` past the end of the source is rejected; the
copy is cut to what the source holds and the target can take. -/
def copy (source target : Buffer) (targetStart sourceStart sourceEnd : Int) :
    Except JsError Buffer :=
  if targetStart < 0 ∨ sourceStart < 0 ∨ sourceEnd < 0 then .error .rangeError
  else if (target.length : Int) ≤ targetStart ∨ sourceEnd ≤ sourceStart then .ok target
  else if (source.length : Int) < sourceStart then .error .rangeError
  else
    let bytes := ((source.drop sourceStart.toNat).take
      (sourceEnd.toNat - sourceStart.toNat)).take (target.length - targetStart.toNat)
    .ok (setBytes target targetStart.toNat bytes)

/-- The callback loop `bipPath.forEach((segment, index) => data.writeUInt32BE(segment, 1 + index * 4))`,
run on the segments from position `index` on. -/
def writeSegments : List Nat → Nat → Buffer → Except JsError Buffer
  | [], _, data => .ok data
  | segment :: rest, index, data =>
    match writeUInt32BE data segment (1 + index * 4) with
    | .error e => .error e
    | .ok data1 => writeSegments rest (index + 1) data1

/-- Lines 37-40 and 96-99: `data.writeInt8(bipPath.length, 0)` followed by the
`forEach` that writes the segments. -/
def writePath (bipPath : List Nat) (data : Buffer) : Except JsError Buffer :=
  match writeInt8 data bipPath.length 0 with
  | .error e => .error e
  | .ok data1 => writeSegments bipPath 0 data1

/-- The helper `adjustOffset` of `Buffer.prototype.slice`: `NaN` counts as 0, a negative
offset counts from the end, and the result is clamped to the buffer. -/
def adjustOffset (offset : Option Int) (length : Nat) : Nat :=
  match offset with
  | none => 0
  | some o => if o < 0 then (o + length).toNat else min o.toNat length

/-- Node `buf.slice(start, end)` with both arguments given. -/
def slice (buf : Buffer) (start stop : Option Int) : Buffer :=
  let s := adjustOffset start buf.length
  let e := adjustOffset stop buf.length
  (buf.drop s).take (e - s)

/-- One lowercase hexadecimal digit. -/
def hexDigit (d : Nat) : Char :=
  if d < 10 then Char.ofNat (48 + d) else Char.ofNat (87 + d)

/-- Node `buf.toString("hex")`: two lowercase hexadecimal digits per byte. -/
def toHex (buf : Buffer) : String :=
  String.mk (buf.flatMap fun b => [hexDigit (b / 16 % 16), hexDigit (b % 16)])

/-- Node `buf.toString("ascii")`: each byte, its high bit cleared, as a character. -/
def toAscii (buf : Buffer) : String :=
  String.mk (buf.map fun b => Char.ofNat (b % 128))

/-- Indexing `response[i]`: the byte at index `i`, `undefined` outside the buffer or for
an index that is `NaN`. -/
def byteAt (buf : Buffer) (i : Option Nat) : Option Nat :=
  match i with
  | none => none
  | some k => buf.get? k

/-- Addition `a + b` on numbers that may be `NaN`. -/
def jsAdd (a b : Option Nat) : Option Nat :=
  match a, b with
  | some x, some y => some (x + y)
  | _, _ => none

/-- A number that may be `NaN`, as a `slice` argument. -/
def toOffset (a : Option Nat) : Option Int := a.map Int.ofNat

/-- The object `getAddress` resolves to. -/
structure AddressResult where
  publicKey : String
  address : String
  chainCode : Option String
deriving DecidableEq

/-- Lines 29-40 of `getAddress`: the packet handed to `transport.send`. -/
def getAddressApdu (bipPath : List Nat) (display chainCode ed25519 : Bool) :
    Except JsError Apdu :=
  let curveMask : Nat := if ed25519 then 0x80 else 0x40
  let cla := 0xe0
  let ins := 0x02
  let p1 : Nat := if display then 0x01 else 0x00
  let p2 : Nat := curveMask ||| (if chainCode then 0x01 else 0x00)
  match alloc (1 + bipPath.length * 4) with
  | .error e => .error e
  | .ok data =>
    match writePath bipPath data with
    | .error e => .error e
    | .ok data1 => .ok { cla := cla, ins := ins, p1 := p1, p2 := p2, data := data1 }

/-- Lines 44-63 of `getAddress`: the result read out of the response. -/
def parseAddress (response : Buffer) (chainCode : Bool) : AddressResult :=
  let publicKeyLength := byteAt response (some 0)
  let addressLength := byteAt response (jsAdd (some 1) publicKeyLength)
  let pkEnd := jsAdd (some 1) publicKeyLength
  let addrStart := jsAdd (jsAdd (some 1) publicKeyLength) (some 1)
  let addrEnd := jsAdd addrStart addressLength
  { publicKey := toHex (slice response (some 1) (toOffset pkEnd))
    address := toAscii (slice response (toOffset addrStart) (toOffset addrEnd))
    chainCode :=
      if chainCode then
        some (toHex (slice response (toOffset addrEnd) (toOffset (jsAdd addrEnd (some 32)))))
      else none }

/-- The method `getAddress`: the packets handed to the transport, and the
outcome. -/
def getAddress (send : Transport) (bipPath : List Nat) (display chainCode ed25519 : Bool) :
    List Apdu × Except JsError AddressResult :=
  match getAddressApdu bipPath display chainCode ed25519 with
  | .error e => ([], .error e)
  | .ok apdu =>
    match send [] apdu with
    | .error code => ([apdu], .error (.transport code))
    | .ok response => ([apdu], .ok (parseAddress response chainCode))

/-- One iteration of the `while` loop of `signTransaction` (lines 79-109) at
byte offset `offset`: the packet built and `chunkSize`. -/
def buildApdu (bipPath : List Nat) (rawTx : Buffer) (curveMask : Nat) (offset : Int) :
    Except JsError (Apdu × Int) :=
  let isFirst : Bool := decide (offset = 0)
  let maxChunkSize : Int := if isFirst then 150 - 1 - bipPath.length * 4 else 150
  let hasMore : Bool := decide (offset + maxChunkSize < rawTx.length)
  let chunkSize : Int := if hasMore then maxChunkSize else rawTx.length - offset
  let p1 : Nat := (if isFirst then 0x00 else 0x01) ||| (if hasMore then 0x80 else 0x00)
  match (if isFirst then alloc (1 + bipPath.length * 4 + chunkSize) else alloc chunkSize) with
  | .error e => .error e
  | .ok data =>
    let filled :=
      if isFirst then
        match writePath bipPath data with
        | .error e => .error e
        | .ok data1 => copy rawTx data1 (1 + bipPath.length * 4) offset (offset + chunkSize)
      else copy rawTx data 0 offset (offset + chunkSize)
    match filled with
    | .error e => .error e
    | .ok data2 =>
      .ok ({ cla := 0xe0, ins := 0x04, p1 := p1, p2 := curveMask, data := data2 }, chunkSize)

/-- The `while (offset !== rawTx.length)` loop of `signTransaction` (lines
78-112), with `fuel` bounding the number of iterations: `none` when the fuel
runs out, otherwise the exception raised or the final `apdus` and `offset`. -/
def chunkLoop (bipPath : List Nat) (rawTx : Buffer) (curveMask : Nat) :
    Nat → List Apdu → Int → Option (Except JsError (List Apdu × Int))
  | 0, _, _ => none
  | fuel + 1, apdus, offset =>
    if offset = rawTx.length then some (.ok (apdus, offset))
    else
      match buildApdu bipPath rawTx curveMask offset with
      | .error e => some (.error e)
      | .ok (apdu, chunkSize) =>
        chunkLoop bipPath rawTx curveMask fuel (apdus ++ [apdu]) (offset + chunkSize)

/-- The `for (let apdu of apdus)` loop of `signTransaction` (lines 114-123):
`sent` are the packets handed to the transport so far, `response` the current
value of the variable `response`. -/
def sendAll (send : Transport) : List Apdu → Buffer → List Apdu → List Apdu × Except JsError Buffer
  | sent, response, [] => (sent, .ok response)
  | sent, _, apdu :: rest =>
    match send sent apdu with
    | .error code => (sent ++ [apdu], .error (.transport code))
    | .ok response1 => sendAll send (sent ++ [apdu]) response1 rest

/-- The packet list `apdus` of `signTransaction` after the `while` loop, run
with `rawTx.length + 1` units of fuel. -/
def signTransactionApdus (bipPath : List Nat) (rawTx : Buffer) (ed25519 : Bool) :
    Option (Except JsError (List Apdu × Int)) :=
  let curveMask : Nat := if ed25519 then 0x80 else 0x40
  chunkLoop bipPath rawTx curveMask (rawTx.length + 1) [] 0

/-- The method `signTransaction`: `none` if the `while` loop does not finish
within its fuel, otherwise the packets handed to the transport and the
outcome.  The variable `response` starts as `Buffer.alloc(0)`, the empty
buffer. -/
def signTransaction (send : Transport) (bipPath : List Nat) (rawTx : Buffer) (ed25519 : Bool) :
    Option (List Apdu × Except JsError String) :=
  match signTransactionApdus bipPath rawTx ed25519 with
  | none => none
  | some (.error e) => some ([], .error e)
  | some (.ok (apdus, _)) =>
    match sendAll send [] [] apdus with
    | (sent, .error e) => some (sent, .error e)
    | (sent, .ok response) =>
      some (sent, .ok (toHex (slice response (some 0) (some ((response.length : Int) - 2)))))

/-- The four bytes of an unsigned 32-bit integer, most significant first. -/
def be32 (v : Nat) : List Nat :=
  [v / 16777216 % 256, v / 65536 % 256, v / 256 % 256, v % 256]

/-- The path bytes as the specification words them (`encodePathPrefix`): one
byte holding the number of segments, then every segment as a big-endian
unsigned 32-bit integer, in path order. -/
def specEncodePath (bipPath : List Nat) : Buffer :=
  bipPath.length :: bipPath.flatMap be32

/-- Closed form of the packet the `while` loop builds in its iteration number
`i` (counting from 0), for a path of at most 37 segments. -/
def expectedApdu (bipPath : List Nat) (rawTx : Buffer) (mask : Nat) (i : Nat) : Apdu :=
  { cla := 0xe0
    ins := 0x04
    p1 := (if i = 0 then 0x00 else 0x01) |||
      (if 149 - bipPath.length * 4 + 150 * i < rawTx.length then 0x80 else 0x00)
    p2 := mask
    data :=
      if i = 0 then specEncodePath bipPath ++ rawTx.take (149 - bipPath.length * 4)
      else (rawTx.drop (149 - bipPath.length * 4 + 150 * (i - 1))).take 150 }

/-- Closed form of the number of iterations of the `while` loop, for a path of
at most 37 segments. -/
def expectedCount (bipPath : List Nat) (rawTx : Buffer) : Nat :=
  if rawTx.length = 0 then 0
  else (rawTx.length - (149 - bipPath.length * 4) + 149) / 150 + 1

/-- The number of transaction bytes carried by the packet at index `i`: the
whole payload, less the path bytes at the front of the first packet. -/
def txByteCount (bipPath : List Nat) (i : Nat) (apdu : Apdu) : Nat :=
  apdu.data.length - (if i = 0 then 1 + bipPath.length * 4 else 0)

/-- The number of transaction bytes carried by a packet sequence. -/
def txBytesCarried (bipPath : List Nat) : List Apdu → Nat
  | [] => 0
  | first :: rest => txByteCount bipPath 0 first + (rest.map fun a => a.data.length).sum

/-- Read a big-endian unsigned 32-bit integer from its four bytes. -/
def readUInt32BE (b0 b1 b2 b3 : Nat) : Nat :=
  ((b0 * 256 + b1) * 256 + b2) * 256 + b3

/-- Read `count` big-endian unsigned 32-bit integers from the front of a
buffer. -/
def specDecodeSegments : Nat → Buffer → Option (List Nat)
  | 0, _ => some []
  | count + 1, b0 :: b1 :: b2 :: b3 :: rest =>
    (specDecodeSegments count rest).map fun segs => readUInt32BE b0 b1 b2 b3 :: segs
  | _ + 1, _ => none

/-- The decoder of the round-trip property, as the specification words it:
the first byte is read as an unsigned count, then that many big-endian unsigned
32-bit integers are read. -/
def specDecodePath : Buffer → Option (Nat × List Nat)
  | [] => none
  | count :: rest => (specDecodeSegments count rest).map fun segs => (count, segs)

/-- JavaScript string conversion of `response[i]` inside a string concatenation:
the decimal digits of the byte, or the text `undefined` outside the buffer. -/
def numToString (v : Option Nat) : String :=
  match v with
  | some n => Nat.repr n
  | none => "undefined"

/-- The object `getAppConfiguration` resolves to. -/
structure AppConfiguration where
  version : String
deriving DecidableEq

/-- The method `getAppConfiguration` (lines 128-135): the packets handed to the
transport, and the outcome.  `transport.send` is called without a data
argument, which the transport takes as the empty buffer. -/
def getAppConfiguration (send : Transport) : List Apdu × Except JsError AppConfiguration :=
  let apdu : Apdu := { cla := 0xe0, ins := 0x06, p1 := 0x00, p2 := 0x00, data := [] }
  match send [] apdu with
  | .error code => ([apdu], .error (.transport code))
  | .ok response =>
    ([apdu], .ok { version := "" ++ numToString (byteAt response (some 1)) ++ "."
      ++ numToString (byteAt response (some 2)) ++ "."
      ++ numToString (byteAt response (some 3)) })

/-- The transaction bytes read back from a packet sequence: the payload of the
first packet without its first `1 + 4 * segmentCount` bytes, followed by the
payloads of the later packets in order. -/
def reassemble (bipPath : List Nat) : List Apdu → Buffer
  | [] => []
  | first :: rest => first.data.drop (1 + bipPath.length * 4) ++ (rest.map fun a => a.data).flatten

/-! ## Buffer lemmas and the closed form of the chunking loop -/

theorem be32_length (v : Nat) : (be32 v).length = 4 := rfl

theorem flatMap_be32_length (p : List Nat) : (p.flatMap be32).length = p.length * 4 := by
  induction p with
  | nil => rfl
  | cons s rest ih =>
    simp only [List.flatMap_cons, List.length_append, be32_length, ih, List.length_cons]; omega

theorem specEncodePath_length (p : List Nat) : (specEncodePath p).length = 1 + p.length * 4 := by
  simp only [specEncodePath, List.length_cons, flatMap_be32_length]; omega

theorem setBytes_mid (pre mid post bytes : List Nat) (h : bytes.length = mid.length) :
    setBytes (pre ++ mid ++ post) pre.length bytes = pre ++ bytes ++ post := by
  unfold setBytes
  have h1 : (pre ++ mid ++ post).take pre.length = pre := by
    rw [List.append_assoc]; exact List.take_left' rfl
  have h2 : (pre ++ mid ++ post).drop (pre.length + bytes.length) = post :=
    List.drop_left' (by rw [List.length_append, h])
  rw [h1, h2]

theorem writeSegments_eq (bipPath : List Nat) :
    ∀ (index : Nat) (pre mid post : List Nat), pre.length = 1 + index * 4 →
      mid.length = bipPath.length * 4 → (∀ s ∈ bipPath, s < 4294967296) →
      writeSegments bipPath index (pre ++ mid ++ post)
        = .ok (pre ++ bipPath.flatMap be32 ++ post) := by
  induction bipPath with
  | nil =>
    intro index pre mid post _ hmid _
    have : mid = [] := List.length_eq_zero.mp (by simpa using hmid)
    simp [writeSegments, this]
  | cons s rest ih =>
    intro index pre mid post hpre hmid hseg
    have hs : s < 4294967296 := hseg s (List.mem_cons_self _ _)
    have hlen : (mid.take 4).length = 4 := by
      rw [List.length_take, hmid, List.length_cons]; omega
    have hsplit : pre ++ mid ++ post = pre ++ mid.take 4 ++ (mid.drop 4 ++ post) := by
      rw [List.append_assoc pre (mid.take 4), ← List.append_assoc (mid.take 4),
        List.take_append_drop, List.append_assoc]
    have hw : writeUInt32BE (pre ++ mid ++ post) s (1 + index * 4)
        = .ok (pre ++ be32 s ++ mid.drop 4 ++ post) := by
      unfold writeUInt32BE
      have h1 : ¬ (4294967295 < s) := by omega
      have h2 : ¬ ((pre ++ mid ++ post).length < 1 + index * 4 + 4) := by
        simp only [List.length_append, hpre, hmid, List.length_cons]; omega
      rw [if_neg h1, if_neg h2, ← hpre, hsplit, setBytes_mid _ _ _ _ (by rw [hlen]; rfl)]
      simp [be32, List.append_assoc]
    rw [writeSegments, hw]
    have := ih (index + 1) (pre ++ be32 s) (mid.drop 4) post
      (by simp [hpre, be32_length]; omega)
      (by rw [List.length_drop, hmid, List.length_cons]; omega)
      (fun x hx => hseg x (List.mem_cons_of_mem _ hx))
    simpa only [List.flatMap_cons, List.append_assoc] using this

theorem writePath_eq (bipPath : List Nat) (post : List Nat) (hn : bipPath.length ≤ 127)
    (hseg : ∀ s ∈ bipPath, s < 4294967296) :
    writePath bipPath (List.replicate (1 + bipPath.length * 4) 0 ++ post)
      = .ok (specEncodePath bipPath ++ post) := by
  unfold writePath writeInt8
  have h1 : ¬ (((bipPath.length : Nat) : Int) < -128 ∨ 127 < ((bipPath.length : Nat) : Int)) := by
    omega
  have h2 : ¬ ((List.replicate (1 + bipPath.length * 4) 0 ++ post).length < 0 + 1) := by
    simp only [List.length_append, List.length_replicate]; omega
  rw [if_neg h1, if_neg h2]
  have hrep : List.replicate (1 + bipPath.length * 4) 0 ++ post
      = ([] : List Nat) ++ [0] ++ (List.replicate (bipPath.length * 4) 0 ++ post) := by
    rw [Nat.add_comm 1, List.replicate_succ]
    rfl
  have hb : (((bipPath.length : Nat) : Int) % 256).toNat = bipPath.length := by omega
  rw [hb, hrep]
  have := setBytes_mid [] [0] (List.replicate (bipPath.length * 4) 0 ++ post) [bipPath.length] rfl
  simp only [List.length_nil] at this
  rw [this]
  have := writeSegments_eq bipPath 0 [bipPath.length] (List.replicate (bipPath.length * 4) 0) post
    (by simp) (by simp) hseg
  simp only [List.nil_append, List.singleton_append] at this ⊢
  simpa [specEncodePath, List.append_assoc] using this

theorem alloc_nat (k : Nat) (z : Int) (hz : z = k) : alloc z = .ok (List.replicate k 0) := by
  subst hz
  unfold alloc
  rw [if_neg (by omega)]
  simp

theorem copy_eq (source pre : Buffer) (s c : Nat) (t a b : Int) (ht : t = pre.length)
    (ha : a = s) (hb : b = s + c) (hc : 0 < c) (hs : s + c ≤ source.length) :
    copy source (pre ++ List.replicate c 0) t a b = .ok (pre ++ (source.drop s).take c) := by
  subst ht ha hb
  unfold copy
  have h1 : ¬ (((pre.length : Nat) : Int) < 0 ∨ ((s : Nat) : Int) < 0
      ∨ (s : Int) + (c : Int) < 0) := by omega
  have h3 : ¬ (((source.length : Nat) : Int) < (s : Int)) := by omega
  have h2 : ¬ ((((pre ++ List.replicate c 0).length : Nat) : Int) ≤ ((pre.length : Nat) : Int)
      ∨ (s : Int) + (c : Int) ≤ (s : Int)) := by
    simp only [List.length_append, List.length_replicate]; omega
  rw [if_neg h1, if_neg h2, if_neg h3]
  have e1 : ((s : Int) + (c : Int)).toNat - s = c := by omega
  have e2 : (pre ++ List.replicate c 0).length - ((pre.length : Nat) : Int).toNat = c := by
    simp only [List.length_append, List.length_replicate]; omega
  have e3 : ((s : Nat) : Int).toNat = s := by omega
  have e4 : ((pre.length : Nat) : Int).toNat = pre.length := by omega
  simp only [e3, e4, e1, e2, List.take_take, Nat.min_self]
  have hlen : ((source.drop s).take c).length = (List.replicate c 0).length := by
    rw [List.length_take, List.length_drop, List.length_replicate]; omega
  have := setBytes_mid pre (List.replicate c 0) [] ((source.drop s).take c) hlen
  simpa using this

theorem buildApdu_first (bipPath : List Nat) (rawTx : Buffer) (mask : Nat)
    (hn : bipPath.length ≤ 37) (hseg : ∀ s ∈ bipPath, s < 4294967296)
    (hL : 0 < rawTx.length) :
    buildApdu bipPath rawTx mask 0
      = .ok ({ cla := 0xe0, ins := 0x04,
               p1 := if 149 - bipPath.length * 4 < rawTx.length then 0x80 else 0x00,
               p2 := mask,
               data := specEncodePath bipPath ++ rawTx.take (149 - bipPath.length * 4) },
             (((if 149 - bipPath.length * 4 < rawTx.length then 149 - bipPath.length * 4
                else rawTx.length : Nat) : Int))) := by
  have hw := fun post => writePath_eq bipPath post (by omega) hseg
  by_cases hm : 149 - bipPath.length * 4 < rawTx.length
  · have hm1 : (0 : Int) + (150 - 1 - (bipPath.length : Int) * 4) < (rawTx.length : Int) := by omega
    have ha := alloc_nat (1 + bipPath.length * 4 + (149 - bipPath.length * 4))
      (1 + (bipPath.length : Int) * 4 + (150 - 1 - (bipPath.length : Int) * 4)) (by omega)
    rw [List.replicate_add] at ha
    have hc := copy_eq rawTx (specEncodePath bipPath) 0 (149 - bipPath.length * 4)
      (1 + (bipPath.length : Int) * 4) 0 (0 + (150 - 1 - (bipPath.length : Int) * 4))
      (by rw [specEncodePath_length]; omega) rfl (by omega) (by omega) (by omega)
    simp only [buildApdu, decide_True, decide_False, if_true, if_false, Bool.false_eq_true, hm1, ha, hw, hc, hm, List.drop_zero]
    simp
    omega
  · have hm1 : ¬ ((0 : Int) + (150 - 1 - (bipPath.length : Int) * 4) < (rawTx.length : Int)) := by
      omega
    have ha := alloc_nat (1 + bipPath.length * 4 + rawTx.length)
      (1 + (bipPath.length : Int) * 4 + ((rawTx.length : Int) - 0)) (by omega)
    rw [List.replicate_add] at ha
    have hc := copy_eq rawTx (specEncodePath bipPath) 0 rawTx.length
      (1 + (bipPath.length : Int) * 4) 0 (0 + ((rawTx.length : Int) - 0))
      (by rw [specEncodePath_length]; omega) rfl (by omega) (by omega) (by omega)
    have ht : rawTx.take (149 - bipPath.length * 4) = rawTx :=
      List.take_of_length_le (by omega)
    simp only [buildApdu, decide_True, decide_False, if_true, if_false, Bool.false_eq_true, hm1, ha, hw, hc, hm, List.drop_zero, ht]
    simp

theorem buildApdu_later (bipPath : List Nat) (rawTx : Buffer) (mask : Nat) (o : Nat)
    (ho : 0 < o) (hL : o < rawTx.length) :
    buildApdu bipPath rawTx mask (o : Int)
      = .ok ({ cla := 0xe0, ins := 0x04,
               p1 := if o + 150 < rawTx.length then 0x81 else 0x01,
               p2 := mask,
               data := (rawTx.drop o).take 150 },
             (((if o + 150 < rawTx.length then 150 else rawTx.length - o : Nat) : Int))) := by
  have h0 : ¬ ((o : Int) = 0) := by omega
  by_cases hm : o + 150 < rawTx.length
  · have hm1 : (o : Int) + 150 < (rawTx.length : Int) := by omega
    have ha := alloc_nat 150 150 rfl
    have hc := copy_eq rawTx [] o 150 0 (o : Int) ((o : Int) + 150) rfl rfl rfl (by omega) (by omega)
    simp only [List.nil_append] at hc
    simp only [buildApdu, h0, decide_True, decide_False, if_true, if_false, Bool.false_eq_true, hm1, ha, hc, hm]
    simp
  · have hm1 : ¬ ((o : Int) + 150 < (rawTx.length : Int)) := by omega
    have ha := alloc_nat (rawTx.length - o) ((rawTx.length : Int) - (o : Int)) (by omega)
    have hc := copy_eq rawTx [] o (rawTx.length - o) 0 (o : Int)
      ((o : Int) + ((rawTx.length : Int) - (o : Int))) rfl rfl (by omega) (by omega) (by omega)
    simp only [List.nil_append] at hc
    have ht : (rawTx.drop o).take 150 = (rawTx.drop o).take (rawTx.length - o) := by
      rw [List.take_of_length_le (by rw [List.length_drop]; omega),
        List.take_of_length_le (by rw [List.length_drop])]
    simp only [buildApdu, h0, decide_True, decide_False, if_true, if_false, Bool.false_eq_true, hm1, ha, hc, hm, ht]
    simp
    omega

theorem chunkLoop_done (bipPath : List Nat) (rawTx : Buffer) (mask fuel : Nat)
    (apdus : List Apdu) (hfuel : 0 < fuel) :
    chunkLoop bipPath rawTx mask fuel apdus (rawTx.length : Int)
      = some (.ok (apdus, (rawTx.length : Int))) := by
  cases fuel with
  | zero => omega
  | succ f => simp [chunkLoop]

theorem chunkLoop_later (bipPath : List Nat) (rawTx : Buffer) (mask : Nat)
    (hn : bipPath.length ≤ 37) (hL : 0 < rawTx.length) :
    ∀ (fuel j : Nat) (apdus : List Apdu), 1 ≤ j →
      149 - bipPath.length * 4 + 150 * (j - 1) ≤ rawTx.length →
      rawTx.length - (149 - bipPath.length * 4 + 150 * (j - 1)) < fuel →
      chunkLoop bipPath rawTx mask fuel apdus
          (((149 - bipPath.length * 4 + 150 * (j - 1) : Nat)) : Int)
        = some (.ok (apdus ++ (List.range' j (expectedCount bipPath rawTx - j)).map
            (expectedApdu bipPath rawTx mask), (rawTx.length : Int))) := by
  intro fuel
  induction fuel with
  | zero => intro j apdus _ _ h; omega
  | succ fuel ih =>
    intro j apdus hj hle hfuel
    have hcount : expectedCount bipPath rawTx
        = (rawTx.length - (149 - bipPath.length * 4) + 149) / 150 + 1 := by
      unfold expectedCount; rw [if_neg (by omega)]
    by_cases hend : 149 - bipPath.length * 4 + 150 * (j - 1) = rawTx.length
    · have hz : expectedCount bipPath rawTx - j = 0 := by rw [hcount]; omega
      rw [hend, chunkLoop_done _ _ _ _ _ (by omega), hz]
      simp
    · have hlt : 149 - bipPath.length * 4 + 150 * (j - 1) < rawTx.length := by omega
      have hne : ¬ (((149 - bipPath.length * 4 + 150 * (j - 1) : Nat) : Int)
          = (rawTx.length : Int)) := by omega
      have hb := buildApdu_later bipPath rawTx mask
        (149 - bipPath.length * 4 + 150 * (j - 1)) (by omega) hlt
      have hj0 : ¬ (j = 0) := by omega
      rw [chunkLoop, if_neg hne, hb]
      by_cases hm : 149 - bipPath.length * 4 + 150 * (j - 1) + 150 < rawTx.length
      · have hm2 : 149 - bipPath.length * 4 + 150 * j < rawTx.length := by omega
        have hexp : expectedApdu bipPath rawTx mask j
            = { cla := 0xe0, ins := 0x04, p1 := 0x81, p2 := mask,
                data := (rawTx.drop (149 - bipPath.length * 4 + 150 * (j - 1))).take 150 } := by
          simp [expectedApdu, hj0, hm2]
        have hoff : (((149 - bipPath.length * 4 + 150 * (j - 1) : Nat)) : Int) + ((150 : Nat) : Int)
            = (((149 - bipPath.length * 4 + 150 * (j + 1 - 1) : Nat)) : Int) := by omega
        have hsplit : expectedCount bipPath rawTx - j
            = (expectedCount bipPath rawTx - (j + 1)) + 1 := by rw [hcount]; omega
        simp only [if_pos hm]
        rw [hoff, ih (j + 1) _ (by omega) (by omega) (by omega), hsplit, List.range'_succ,
          List.map_cons, hexp]
        simp
      · have hm2 : ¬ (149 - bipPath.length * 4 + 150 * j < rawTx.length) := by omega
        have hexp : expectedApdu bipPath rawTx mask j
            = { cla := 0xe0, ins := 0x04, p1 := 0x01, p2 := mask,
                data := (rawTx.drop (149 - bipPath.length * 4 + 150 * (j - 1))).take 150 } := by
          simp [expectedApdu, hj0, hm2]
        have hoff : (((149 - bipPath.length * 4 + 150 * (j - 1) : Nat)) : Int)
            + ((rawTx.length - (149 - bipPath.length * 4 + 150 * (j - 1)) : Nat) : Int)
            = (rawTx.length : Int) := by omega
        have hone : expectedCount bipPath rawTx - j = 1 := by rw [hcount]; omega
        simp only [if_neg hm]
        rw [hoff, chunkLoop_done _ _ _ _ _ (by omega), hone]
        simp [List.range', hexp]

theorem chunkLoop_from_start (bipPath : List Nat) (rawTx : Buffer) (mask fuel : Nat)
    (hn : bipPath.length ≤ 37) (hseg : ∀ s ∈ bipPath, s < 4294967296)
    (hfuel : rawTx.length < fuel) :
    chunkLoop bipPath rawTx mask fuel [] 0
      = some (.ok ((List.range (expectedCount bipPath rawTx)).map
          (expectedApdu bipPath rawTx mask), (rawTx.length : Int))) := by
  by_cases hL : rawTx.length = 0
  · have h0 : ((0 : Int)) = (rawTx.length : Int) := by omega
    have hc : expectedCount bipPath rawTx = 0 := by simp [expectedCount, hL]
    rw [h0, chunkLoop_done _ _ _ _ _ (by omega), hc]
    simp
  · have hpos : 0 < rawTx.length := by omega
    have hcount : expectedCount bipPath rawTx
        = (rawTx.length - (149 - bipPath.length * 4) + 149) / 150 + 1 := by
      unfold expectedCount; rw [if_neg hL]
    have hne : ¬ ((0 : Int) = (rawTx.length : Int)) := by omega
    have hb := buildApdu_first bipPath rawTx mask hn hseg hpos
    obtain ⟨f, rfl⟩ : ∃ f, fuel = f + 1 := ⟨fuel - 1, by omega⟩
    rw [chunkLoop, if_neg hne, hb]
    by_cases hm : 149 - bipPath.length * 4 < rawTx.length
    · have hexp : expectedApdu bipPath rawTx mask 0
          = { cla := 0xe0, ins := 0x04, p1 := 0x80, p2 := mask,
              data := specEncodePath bipPath ++ rawTx.take (149 - bipPath.length * 4) } := by
        simp [expectedApdu, hm]
      have hoff : (0 : Int) + ((149 - bipPath.length * 4 : Nat) : Int)
          = (((149 - bipPath.length * 4 + 150 * (1 - 1) : Nat)) : Int) := by omega
      have hl := chunkLoop_later bipPath rawTx mask hn hpos f 1
      simp only [if_pos hm]
      rw [hoff, hl _ (by omega) (by omega) (by omega), List.range_eq_range']
      have hsplit : expectedCount bipPath rawTx = (expectedCount bipPath rawTx - 1) + 1 := by
        rw [hcount]; omega
      conv_rhs => rw [hsplit, List.range'_succ, List.map_cons, hexp]
      simp
    · have hexp : expectedApdu bipPath rawTx mask 0
          = { cla := 0xe0, ins := 0x04, p1 := 0x00, p2 := mask,
              data := specEncodePath bipPath ++ rawTx.take (149 - bipPath.length * 4) } := by
        simp [expectedApdu, hm]
      have hoff : (0 : Int) + ((rawTx.length : Nat) : Int) = (rawTx.length : Int) := by omega
      have hone : expectedCount bipPath rawTx = 1 := by rw [hcount]; omega
      simp only [if_neg hm]
      rw [hoff, chunkLoop_done _ _ _ _ _ (by omega), hone]
      simp [List.range_succ, hexp]

theorem signTransactionApdus_eq (bipPath : List Nat) (rawTx : Buffer) (ed25519 : Bool)
    (hn : bipPath.length ≤ 37) (hseg : ∀ s ∈ bipPath, s < 4294967296) :
    signTransactionApdus bipPath rawTx ed25519
      = some (.ok ((List.range (expectedCount bipPath rawTx)).map
          (expectedApdu bipPath rawTx (if ed25519 then 0x80 else 0x40)), (rawTx.length : Int))) :=
  chunkLoop_from_start bipPath rawTx _ _ hn hseg (Nat.lt_succ_self _)

theorem expectedCount_pos (bipPath : List Nat) (rawTx : Buffer) (hL : rawTx.length ≠ 0) :
    expectedCount bipPath rawTx
      = (rawTx.length - (149 - bipPath.length * 4) + 149) / 150 + 1 := by
  unfold expectedCount; rw [if_neg hL]

theorem expectedApdu_zero_length (bipPath : List Nat) (rawTx : Buffer) (mask : Nat) :
    (expectedApdu bipPath rawTx mask 0).data.length
      = 1 + bipPath.length * 4 + min (149 - bipPath.length * 4) rawTx.length := by
  simp [expectedApdu, specEncodePath_length]

theorem expectedApdu_succ_length (bipPath : List Nat) (rawTx : Buffer) (mask i : Nat) :
    (expectedApdu bipPath rawTx mask (i + 1)).data.length
      = min 150 (rawTx.length - (149 - bipPath.length * 4 + 150 * i)) := by
  simp [expectedApdu]

theorem expectedApdu_later_sum (bipPath : List Nat) (rawTx : Buffer) (mask : Nat) (k : Nat) :
    ((List.range k).map fun i => (expectedApdu bipPath rawTx mask (i + 1)).data.length).sum
      = min (rawTx.length - (149 - bipPath.length * 4)) (150 * k) := by
  induction k with
  | zero => simp
  | succ k ih =>
    rw [List.range_succ, List.map_append, List.sum_append, ih, List.map_singleton,
      List.sum_singleton, expectedApdu_succ_length]
    omega

theorem txBytesCarried_expected (bipPath : List Nat) (rawTx : Buffer) (mask : Nat) (k : Nat) :
    txBytesCarried bipPath ((List.range (k + 1)).map (expectedApdu bipPath rawTx mask))
      = min (149 - bipPath.length * 4) rawTx.length
        + min (rawTx.length - (149 - bipPath.length * 4)) (150 * k) := by
  rw [List.range_succ_eq_map, List.map_cons, List.map_map]
  simp only [txBytesCarried, txByteCount]
  rw [List.map_map, expectedApdu_zero_length, if_pos trivial]
  have := expectedApdu_later_sum bipPath rawTx mask k
  simp only [Function.comp_def, Nat.succ_eq_add_one] at this ⊢
  rw [this]
  omega

theorem txBytesCarried_all (bipPath : List Nat) (rawTx : Buffer) (mask : Nat) :
    txBytesCarried bipPath
        ((List.range (expectedCount bipPath rawTx)).map (expectedApdu bipPath rawTx mask))
      = rawTx.length := by
  by_cases hL : rawTx.length = 0
  · simp [expectedCount, hL, txBytesCarried]
  · have hcount : expectedCount bipPath rawTx
        = (rawTx.length - (149 - bipPath.length * 4) + 149) / 150 + 1 := by
      unfold expectedCount; rw [if_neg hL]
    rw [hcount, txBytesCarried_expected]
    omega

theorem ceil_chunks (L n : Nat) (hn : n ≤ 37) (hm : 149 - n * 4 < L) :
    ⌈(((L : ℚ) - (150 - 1 - 4 * (n : ℚ))) / 150)⌉ = (((L - (149 - n * 4) + 149) / 150 : Nat) : Int) := by
  have hd : ((L : ℚ) - (150 - 1 - 4 * (n : ℚ))) = ((L - (149 - n * 4) : Nat) : ℚ) := by
    have h : (L - (149 - n * 4)) + 149 = L + 4 * n := by omega
    have h2 : (((L - (149 - n * 4)) + 149 : Nat) : ℚ) = ((L + 4 * n : Nat) : ℚ) := by rw [h]
    push_cast at h2
    linarith
  rw [hd, Int.ceil_eq_iff]
  generalize L - (149 - n * 4) = d
  have hq1 : 150 * ((d + 149) / 150) < d + 150 := by omega
  have hq2 : d ≤ 150 * ((d + 149) / 150) := by omega
  generalize (d + 149) / 150 = q at hq1 hq2 ⊢
  have c1 : ((150 * q : Nat) : ℚ) < ((d + 150 : Nat) : ℚ) := by exact_mod_cast hq1
  have c2 : ((d : Nat) : ℚ) ≤ ((150 * q : Nat) : ℚ) := by exact_mod_cast hq2
  push_cast at c1 c2
  constructor
  · rw [lt_div_iff₀ (by norm_num : (0 : ℚ) < 150)]
    push_cast
    linarith
  · rw [div_le_iff₀ (by norm_num : (0 : ℚ) < 150)]
    push_cast
    linarith

theorem expectedCount_lt_iff (bipPath : List Nat) (rawTx : Buffer) (i : Nat)
    (hi : i < expectedCount bipPath rawTx) :
    i + 1 < expectedCount bipPath rawTx
      ↔ 149 - bipPath.length * 4 + 150 * i < rawTx.length := by
  have hL : rawTx.length ≠ 0 := by
    intro h; simp [expectedCount, h] at hi
  rw [expectedCount_pos _ _ hL] at hi ⊢
  omega

theorem txByteCount_expected (bipPath : List Nat) (rawTx : Buffer) (mask i : Nat) :
    txByteCount bipPath i (expectedApdu bipPath rawTx mask i)
      = if i = 0 then min (149 - bipPath.length * 4) rawTx.length
        else min 150 (rawTx.length - (149 - bipPath.length * 4 + 150 * (i - 1))) := by
  unfold txByteCount
  cases i with
  | zero => rw [expectedApdu_zero_length]; simp
  | succ i => rw [expectedApdu_succ_length]; simp

theorem signTransaction_sent (send : Transport) (bipPath : List Nat) (rawTx : Buffer)
    (ed25519 : Bool) (apdus : List Apdu) (offset : Int)
    (h : signTransactionApdus bipPath rawTx ed25519 = some (.ok (apdus, offset))) :
    ∃ result, signTransaction send bipPath rawTx ed25519
      = some ((sendAll send [] [] apdus).1, result) := by
  unfold signTransaction
  rw [h]
  dsimp only
  rcases hs : sendAll send [] [] apdus with ⟨sent, e | response⟩
  · exact ⟨_, rfl⟩
  · exact ⟨_, rfl⟩

theorem sendAll_single (send : Transport) (sent : List Apdu) (response : Buffer)
    (apdu : Apdu) : (sendAll send sent response [apdu]).1 = sent ++ [apdu] := by
  unfold sendAll
  cases send sent apdu with
  | error code => rfl
  | ok r => rfl

theorem getAddressApdu_eq (bipPath : List Nat) (display chainCode ed25519 : Bool)
    (hn : bipPath.length ≤ 127) (hseg : ∀ s ∈ bipPath, s < 4294967296) :
    getAddressApdu bipPath display chainCode ed25519
      = .ok { cla := 0xe0, ins := 0x02, p1 := if display then 0x01 else 0x00,
              p2 := (if ed25519 then 0x80 else 0x40) ||| (if chainCode then 0x01 else 0x00),
              data := specEncodePath bipPath } := by
  have ha := alloc_nat (1 + bipPath.length * 4) (1 + (bipPath.length : Int) * 4) (by omega)
  have hw := writePath_eq bipPath [] hn hseg
  rw [List.append_nil, List.append_nil] at hw
  simp only [getAddressApdu, ha, hw]

theorem getAddressApdu_rangeError (bipPath : List Nat) (display chainCode ed25519 : Bool)
    (hn : 127 < bipPath.length) :
    getAddressApdu bipPath display chainCode ed25519 = .error .rangeError := by
  have ha := alloc_nat (1 + bipPath.length * 4) (1 + (bipPath.length : Int) * 4) (by omega)
  have hw : ∀ data, writePath bipPath data = .error .rangeError := by
    intro data
    unfold writePath writeInt8
    rw [if_pos (Or.inr (by omega))]
  simp only [getAddressApdu, ha, hw]

theorem getAddress_sent (send : Transport) (bipPath : List Nat)
    (display chainCode ed25519 : Bool) (apdu : Apdu)
    (h : getAddressApdu bipPath display chainCode ed25519 = .ok apdu) :
    ∃ result, getAddress send bipPath display chainCode ed25519 = ([apdu], result) := by
  unfold getAddress
  rw [h]
  dsimp only
  cases send [] apdu with
  | error code => exact ⟨_, rfl⟩
  | ok response => exact ⟨_, rfl⟩

theorem getAddress_rangeError (send : Transport) (bipPath : List Nat)
    (display chainCode ed25519 : Bool) (hn : 127 < bipPath.length) :
    getAddress send bipPath display chainCode ed25519 = ([], .error .rangeError) := by
  unfold getAddress
  rw [getAddressApdu_rangeError _ _ _ _ hn]

theorem readUInt32BE_be32 (s : Nat) (hs : s < 4294967296) :
    readUInt32BE (s / 16777216 % 256) (s / 65536 % 256) (s / 256 % 256) (s % 256) = s := by
  unfold readUInt32BE
  omega

theorem specDecodeSegments_flatMap (bipPath : List Nat) (rest : Buffer)
    (hseg : ∀ s ∈ bipPath, s < 4294967296) :
    specDecodeSegments bipPath.length (bipPath.flatMap be32 ++ rest) = some bipPath := by
  induction bipPath with
  | nil => rfl
  | cons s tail ih =>
    have hs := hseg s (List.mem_cons_self _ _)
    have ht := ih (fun x hx => hseg x (List.mem_cons_of_mem _ hx))
    show specDecodeSegments (tail.length + 1)
      (s / 16777216 % 256 :: s / 65536 % 256 :: s / 256 % 256 :: s % 256
        :: (tail.flatMap be32 ++ rest)) = some (s :: tail)
    rw [specDecodeSegments, ht, Option.map_some', readUInt32BE_be32 s hs]

theorem specDecodePath_specEncodePath (bipPath : List Nat)
    (hseg : ∀ s ∈ bipPath, s < 4294967296) :
    specDecodePath (specEncodePath bipPath) = some (bipPath.length, bipPath) := by
  have h := specDecodeSegments_flatMap bipPath [] hseg
  rw [List.append_nil] at h
  simp only [specEncodePath, specDecodePath, h, Option.map_some']

/-! ## Termination of the chunking loop for every input -/

theorem setBytes_length (buf : Buffer) (offset : Nat) (bytes : List Nat)
    (h : offset + bytes.length ≤ buf.length) : (setBytes buf offset bytes).length = buf.length := by
  unfold setBytes
  simp only [List.length_append, List.length_take, List.length_drop]
  omega

theorem writeUInt32BE_length (buf : Buffer) (value offset : Nat) (out : Buffer)
    (h : writeUInt32BE buf value offset = .ok out) : out.length = buf.length := by
  unfold writeUInt32BE at h
  split at h
  · cases h
  · split at h
    · cases h
    · rename_i hlen
      injection h with h
      rw [← h]
      exact setBytes_length _ _ _ (by simp only [List.length_cons, List.length_nil]; omega)

theorem writeSegments_short (bipPath : List Nat) :
    ∀ (index : Nat) (data : Buffer), bipPath ≠ [] →
      data.length < 1 + (index + bipPath.length) * 4 →
      writeSegments bipPath index data = .error .rangeError := by
  induction bipPath with
  | nil => intro _ _ h; exact absurd rfl h
  | cons s rest ih =>
    intro index data _ hlen
    rw [writeSegments]
    cases hw : writeUInt32BE data s (1 + index * 4) with
    | error e => cases e with
      | rangeError => rfl
      | transport code =>
        unfold writeUInt32BE at hw
        split at hw
        · cases hw
        · split at hw <;> cases hw
    | ok data1 =>
      have hl := writeUInt32BE_length _ _ _ _ hw
      have hfit : ¬ (data.length < 1 + index * 4 + 4) := by
        intro hlt
        simp [writeUInt32BE, hlt] at hw
      have hrest : rest ≠ [] := by
        intro h0
        rw [h0] at hlen
        simp only [List.length_cons, List.length_nil] at hlen
        omega
      exact ih (index + 1) data1 hrest (by rw [hl]; simp only [List.length_cons] at hlen; omega)

theorem writeInt8_length (buf : Buffer) (value : Int) (offset : Nat) (out : Buffer)
    (h : writeInt8 buf value offset = .ok out) : out.length = buf.length := by
  unfold writeInt8 at h
  split at h
  · cases h
  · split at h
    · cases h
    · injection h with h
      rw [← h]
      exact setBytes_length _ _ _ (by simp only [List.length_cons, List.length_nil]; omega)

theorem writePath_short (bipPath : List Nat) (data : Buffer)
    (hlen : data.length < 1 + bipPath.length * 4) :
    writePath bipPath data = .error .rangeError ∨ bipPath = [] := by
  by_cases hnil : bipPath = []
  · exact Or.inr hnil
  · left
    unfold writePath
    cases hw : writeInt8 data bipPath.length 0 with
    | error e => cases e with
      | rangeError => rfl
      | transport code =>
        unfold writeInt8 at hw
        split at hw
        · cases hw
        · split at hw <;> cases hw
    | ok data1 =>
      have hl := writeInt8_length _ _ _ _ hw
      exact writeSegments_short bipPath 0 data1 hnil (by rw [hl]; omega)

theorem buildApdu_long_path (bipPath : List Nat) (rawTx : Buffer) (mask : Nat)
    (hn : 37 < bipPath.length) (hL : 0 < rawTx.length) :
    buildApdu bipPath rawTx mask 0 = .error .rangeError := by
  have hm1 : (0 : Int) + (150 - 1 - (bipPath.length : Int) * 4) < (rawTx.length : Int) := by omega
  have ha := alloc_nat 150
    (1 + (bipPath.length : Int) * 4 + (150 - 1 - (bipPath.length : Int) * 4)) (by omega)
  have hw : writePath bipPath (List.replicate 150 0) = .error .rangeError := by
    rcases writePath_short bipPath (List.replicate 150 0)
      (by rw [List.length_replicate]; omega) with h | h
    · exact h
    · rw [h] at hn; simp at hn
  simp only [buildApdu, decide_True, if_true, hm1, ha, hw]

theorem buildApdu_chunkSize (bipPath : List Nat) (rawTx : Buffer) (mask : Nat) (offset : Int)
    (apdu : Apdu) (chunkSize : Int)
    (h : buildApdu bipPath rawTx mask offset = .ok (apdu, chunkSize)) :
    chunkSize =
      if offset + (if offset = 0 then 150 - 1 - (bipPath.length : Int) * 4 else 150)
          < (rawTx.length : Int) then
        (if offset = 0 then 150 - 1 - (bipPath.length : Int) * 4 else 150)
      else (rawTx.length : Int) - offset := by
  unfold buildApdu at h
  dsimp only at h
  split at h
  · cases h
  · split at h
    · cases h
    · injection h with h
      injection h with _ h2
      rw [← h2]
      simp

theorem chunkLoop_fuel_mono (bipPath : List Nat) (rawTx : Buffer) (mask : Nat) :
    ∀ (fuel : Nat) (apdus : List Apdu) (offset : Int) (r : Except JsError (List Apdu × Int)),
      chunkLoop bipPath rawTx mask fuel apdus offset = some r →
      ∀ extra, chunkLoop bipPath rawTx mask (fuel + extra) apdus offset = some r := by
  intro fuel
  induction fuel with
  | zero => intro apdus offset r h; simp [chunkLoop] at h
  | succ fuel ih =>
    intro apdus offset r h extra
    rw [Nat.add_right_comm]
    rw [chunkLoop] at h ⊢
    by_cases hend : offset = (rawTx.length : Int)
    · rw [if_pos hend] at h ⊢; exact h
    · rw [if_neg hend] at h ⊢
      cases hb : buildApdu bipPath rawTx mask offset with
      | error e => rw [hb] at h; exact h
      | ok pair =>
        obtain ⟨apdu, chunkSize⟩ := pair
        rw [hb] at h
        exact ih _ _ _ h extra

/-- The `while` loop of `signTransaction` never runs out of the fuel
`signTransaction` gives it: for every path and every transaction it ends, with
an exception or with the packet list. -/
theorem chunkLoop_total (bipPath : List Nat) (rawTx : Buffer) (mask fuel : Nat)
    (hfuel : rawTx.length < fuel) :
    ∃ r, chunkLoop bipPath rawTx mask fuel [] 0 = some r := by
  by_cases hL : rawTx.length = 0
  · have h0 : ((0 : Int)) = (rawTx.length : Int) := by omega
    rw [h0]
    exact ⟨_, chunkLoop_done _ _ _ _ _ (by omega)⟩
  · have hpos : 0 < rawTx.length := by omega
    have hne : ¬ ((0 : Int) = (rawTx.length : Int)) := by omega
    obtain ⟨f, rfl⟩ : ∃ f, fuel = f + 1 := ⟨fuel - 1, by omega⟩
    rw [chunkLoop, if_neg hne]
    cases hb : buildApdu bipPath rawTx mask 0 with
    | error e => exact ⟨_, rfl⟩
    | ok pair =>
      obtain ⟨apdu, chunkSize⟩ := pair
      have hn : bipPath.length ≤ 37 := by
        by_contra hlong
        rw [buildApdu_long_path bipPath rawTx mask (by omega) hpos] at hb
        cases hb
      have hc := buildApdu_chunkSize _ _ _ _ _ _ hb
      simp only [if_true] at hc
      dsimp only
      by_cases hm : 149 - bipPath.length * 4 < rawTx.length
      · rw [if_pos (by omega)] at hc
        have hoff : (0 : Int) + chunkSize
            = (((149 - bipPath.length * 4 + 150 * (1 - 1) : Nat)) : Int) := by omega
        rw [hoff]
        exact ⟨_, chunkLoop_later bipPath rawTx mask hn hpos f 1 _ (by omega) (by omega)
          (by omega)⟩
      · rw [if_neg (by omega)] at hc
        have hoff : (0 : Int) + chunkSize = (rawTx.length : Int) := by omega
        rw [hoff]
        exact ⟨_, chunkLoop_done _ _ _ _ _ (by omega)⟩

/-- The method `signTransaction` always returns: the fuel it gives the `while`
loop is enough whatever the path and the transaction. -/
theorem signTransaction_total (send : Transport) (bipPath : List Nat) (rawTx : Buffer)
    (ed25519 : Bool) : ∃ r, signTransaction send bipPath rawTx ed25519 = some r := by
  obtain ⟨r, hr⟩ := chunkLoop_total bipPath rawTx (if ed25519 then 0x80 else 0x40)
    (rawTx.length + 1) (Nat.lt_succ_self _)
  unfold signTransaction signTransactionApdus
  dsimp only
  rw [hr]
  cases r with
  | error e => exact ⟨_, rfl⟩
  | ok pair =>
    obtain ⟨apdus, offset⟩ := pair
    dsimp only
    rcases sendAll send [] [] apdus with ⟨sent, e | response⟩
    · exact ⟨_, rfl⟩
    · exact ⟨_, rfl⟩

/-! ## The claims -/

/-- C1 (as amended): for every path, every curve flag and every transport,
`signTransaction` called with a transaction of 0 bytes hands no packet to the
transport and resolves to the empty string. -/
theorem C1_empty_transaction_sends_nothing (send : Transport) (bipPath : List Nat)
    (ed25519 : Bool) :
    signTransaction send bipPath [] ed25519 = some ([], .ok "") := by
  simp [signTransaction, signTransactionApdus, chunkLoop, sendAll, toHex, slice, adjustOffset]

/-- C1 (as stated) fails: with the path [0x8000002c, 0x800001fc, 0x80000000, 0, 0] and a transaction of 0
bytes no run of `signTransaction` hands exactly one packet to the transport. -/
theorem C1_counterexample :
    ¬ ∃ apdu result, signTransaction (fun _ _ => .ok [0x90, 0x00])
        [0x8000002c, 0x800001fc, 0x80000000, 0, 0] [] false = some ([apdu], result) := by
  rintro ⟨apdu, result, h⟩
  have h0 : signTransaction (fun _ _ => .ok [0x90, 0x00])
      [0x8000002c, 0x800001fc, 0x80000000, 0, 0] [] false = some ([], .ok "") := by
    simp [signTransaction, signTransactionApdus, chunkLoop, sendAll, toHex, slice, adjustOffset]
  rw [h0] at h
  simp at h

/-- C2: for every path of at most 37 segments (unsigned 32-bit each) and every
transaction, the chunking loop of `signTransaction` terminates (with any fuel
above the transaction length, hence with the fuel the method uses), the byte
offset ends at exactly the transaction length, and the transaction bytes
carried by the packets built add up to the transaction length. -/
theorem C2_chunking_terminates_and_covers (bipPath : List Nat) (rawTx : Buffer)
    (ed25519 : Bool) (hn : bipPath.length ≤ 37) (hseg : ∀ s ∈ bipPath, s < 4294967296) :
    ∃ apdus : List Apdu,
      (∀ fuel, rawTx.length < fuel →
        chunkLoop bipPath rawTx (if ed25519 then 0x80 else 0x40) fuel [] 0
          = some (.ok (apdus, (rawTx.length : Int)))) ∧
      signTransactionApdus bipPath rawTx ed25519 = some (.ok (apdus, (rawTx.length : Int))) ∧
      txBytesCarried bipPath apdus = rawTx.length :=
  ⟨_, fun fuel hfuel => chunkLoop_from_start bipPath rawTx _ fuel hn hseg hfuel,
    signTransactionApdus_eq bipPath rawTx ed25519 hn hseg,
    txBytesCarried_all bipPath rawTx _⟩

/-- C2 at the path [0x8000002c, 0x800001fc, 0x80000000, 0, 0] and a transaction of 300 bytes. -/
theorem C2_witness :
    ([0x8000002c, 0x800001fc, 0x80000000, 0, 0] : List Nat).length ≤ 37 ∧
    (∀ s ∈ ([0x8000002c, 0x800001fc, 0x80000000, 0, 0] : List Nat), s < 4294967296) ∧
    ∃ apdus : List Apdu,
      (∀ fuel, (List.replicate 300 7).length < fuel →
        chunkLoop [0x8000002c, 0x800001fc, 0x80000000, 0, 0] (List.replicate 300 7)
            (if false then 0x80 else 0x40) fuel [] 0
          = some (.ok (apdus, ((List.replicate 300 7).length : Int)))) ∧
      signTransactionApdus [0x8000002c, 0x800001fc, 0x80000000, 0, 0] (List.replicate 300 7) false
        = some (.ok (apdus, ((List.replicate 300 7).length : Int))) ∧
      txBytesCarried [0x8000002c, 0x800001fc, 0x80000000, 0, 0] apdus
        = (List.replicate 300 7).length :=
  ⟨by decide, by decide,
    C2_chunking_terminates_and_covers [0x8000002c, 0x800001fc, 0x80000000, 0, 0]
      (List.replicate 300 7) false (by decide) (by decide)⟩

/-- C3 (as amended): for every path of at most 37 segments (so in particular
1 to 10), unsigned 32-bit each, and every transaction of length L, with
firstChunkCapacity = 150 - 1 - 4 * segmentCount, `signTransaction` builds no
packet when L = 0; when L ≥ 1 it builds ⌈(L - firstChunkCapacity) / 150⌉ + 1
packets if L > firstChunkCapacity and 1 packet otherwise. -/
theorem C3_packet_count (bipPath : List Nat) (rawTx : Buffer) (ed25519 : Bool)
    (hn : bipPath.length ≤ 37) (hseg : ∀ s ∈ bipPath, s < 4294967296) :
    ∃ apdus : List Apdu,
      signTransactionApdus bipPath rawTx ed25519 = some (.ok (apdus, (rawTx.length : Int))) ∧
      (apdus.length : Int) =
        if rawTx.length = 0 then 0
        else if 150 - 1 - 4 * (bipPath.length : Int) < (rawTx.length : Int) then
          ⌈(((rawTx.length : ℚ) - (150 - 1 - 4 * (bipPath.length : ℚ))) / 150)⌉ + 1
        else 1 := by
  refine ⟨_, signTransactionApdus_eq bipPath rawTx ed25519 hn hseg, ?_⟩
  rw [List.length_map, List.length_range]
  by_cases hL : rawTx.length = 0
  · simp [expectedCount, hL]
  · rw [if_neg hL, expectedCount_pos _ _ hL]
    by_cases hm : 149 - bipPath.length * 4 < rawTx.length
    · rw [if_pos (by omega), ceil_chunks _ _ hn hm]
      push_cast
      rfl
    · rw [if_neg (by omega)]
      have : (rawTx.length - (149 - bipPath.length * 4) + 149) / 150 = 0 := by omega
      rw [this]
      rfl

/-- C3 at the path [0x8000002c, 0x800001fc, 0x80000000, 0, 0] and a transaction of 300 bytes. -/
theorem C3_witness :
    ([0x8000002c, 0x800001fc, 0x80000000, 0, 0] : List Nat).length ≤ 37 ∧
    (∀ s ∈ ([0x8000002c, 0x800001fc, 0x80000000, 0, 0] : List Nat), s < 4294967296) ∧
    ∃ apdus : List Apdu,
      signTransactionApdus [0x8000002c, 0x800001fc, 0x80000000, 0, 0] (List.replicate 300 7) false
        = some (.ok (apdus, ((List.replicate 300 7).length : Int))) ∧
      (apdus.length : Int) =
        if (List.replicate 300 7).length = 0 then 0
        else if 150 - 1 - 4 * (([0x8000002c, 0x800001fc, 0x80000000, 0, 0] : List Nat).length : Int)
            < ((List.replicate 300 7).length : Int) then
          ⌈((((List.replicate 300 7).length : ℚ)
            - (150 - 1 - 4 * (([0x8000002c, 0x800001fc, 0x80000000, 0, 0] : List Nat).length : ℚ)))
              / 150)⌉ + 1
        else 1 :=
  ⟨by decide, by decide,
    C3_packet_count [0x8000002c, 0x800001fc, 0x80000000, 0, 0] (List.replicate 300 7) false
      (by decide) (by decide)⟩

/-- C3 (as stated) fails: with the path [0x8000002c, 0x800001fc, 0x80000000, 0, 0] and a transaction of 0
bytes, which does not exceed the first-chunk capacity, `signTransaction` does
not build 1 packet. -/
theorem C3_counterexample :
    ¬ ∃ apdus offset, signTransactionApdus [0x8000002c, 0x800001fc, 0x80000000, 0, 0] [] false
        = some (.ok (apdus, offset)) ∧ apdus.length = 1 := by
  rintro ⟨apdus, offset, h, hlen⟩
  have h0 : signTransactionApdus [0x8000002c, 0x800001fc, 0x80000000, 0, 0] [] false
      = some (.ok ([], 0)) := by
    simp [signTransactionApdus, chunkLoop]
  rw [h0] at h
  simp at h
  rw [h.1] at hlen
  simp at hlen

/-- C4: for every path of at most 37 segments (unsigned 32-bit each) and every
transaction, the packet at index `i` of the sequence `signTransaction` builds
has param1 = (0x00 if i = 0 else 0x01) OR (0x80 if i is not the last index else
0x00). -/
theorem C4_param1_flags (bipPath : List Nat) (rawTx : Buffer) (ed25519 : Bool)
    (hn : bipPath.length ≤ 37) (hseg : ∀ s ∈ bipPath, s < 4294967296) :
    ∃ apdus : List Apdu,
      signTransactionApdus bipPath rawTx ed25519 = some (.ok (apdus, (rawTx.length : Int))) ∧
      ∀ (i : Nat) (h : i < apdus.length),
        apdus[i].p1 = (if i = 0 then 0x00 else 0x01) |||
          (if i + 1 < apdus.length then 0x80 else 0x00) := by
  refine ⟨_, signTransactionApdus_eq bipPath rawTx ed25519 hn hseg, ?_⟩
  intro i h
  have hi : i < expectedCount bipPath rawTx := by simpa using h
  rw [List.getElem_map, List.getElem_range, List.length_map, List.length_range]
  simp only [expectedApdu, expectedCount_lt_iff bipPath rawTx i hi]

/-- C4 at the path [0x8000002c, 0x800001fc, 0x80000000, 0, 0] and a transaction of 300 bytes. -/
theorem C4_witness :
    ([0x8000002c, 0x800001fc, 0x80000000, 0, 0] : List Nat).length ≤ 37 ∧
    (∀ s ∈ ([0x8000002c, 0x800001fc, 0x80000000, 0, 0] : List Nat), s < 4294967296) ∧
    ∃ apdus : List Apdu,
      signTransactionApdus [0x8000002c, 0x800001fc, 0x80000000, 0, 0] (List.replicate 300 7) true
        = some (.ok (apdus, ((List.replicate 300 7).length : Int))) ∧
      ∀ (i : Nat) (h : i < apdus.length),
        apdus[i].p1 = (if i = 0 then 0x00 else 0x01) |||
          (if i + 1 < apdus.length then 0x80 else 0x00) :=
  ⟨by decide, by decide,
    C4_param1_flags [0x8000002c, 0x800001fc, 0x80000000, 0, 0] (List.replicate 300 7) true
      (by decide) (by decide)⟩

/-- C5: for every path of at most 37 segments (unsigned 32-bit each) and every
transaction, every non-final packet `signTransaction` builds carries exactly
its capacity in transaction bytes (150 - 1 - 4 * segmentCount for the first
packet, 150 for a later one), and the final packet carries exactly the bytes
the earlier packets left, a count between 1 and its capacity. -/
theorem C5_chunk_sizes (bipPath : List Nat) (rawTx : Buffer) (ed25519 : Bool)
    (hn : bipPath.length ≤ 37) (hseg : ∀ s ∈ bipPath, s < 4294967296) :
    ∃ apdus : List Apdu,
      signTransactionApdus bipPath rawTx ed25519 = some (.ok (apdus, (rawTx.length : Int))) ∧
      ∀ (i : Nat) (h : i < apdus.length),
        (i + 1 < apdus.length →
          txByteCount bipPath i apdus[i]
            = if i = 0 then 150 - 1 - 4 * bipPath.length else 150) ∧
        (i + 1 = apdus.length →
          txByteCount bipPath i apdus[i]
            = rawTx.length - txBytesCarried bipPath (apdus.take i) ∧
          1 ≤ txByteCount bipPath i apdus[i] ∧
          txByteCount bipPath i apdus[i]
            ≤ if i = 0 then 150 - 1 - 4 * bipPath.length else 150) := by
  refine ⟨_, signTransactionApdus_eq bipPath rawTx ed25519 hn hseg, ?_⟩
  intro i h
  have hi : i < expectedCount bipPath rawTx := by simpa using h
  have hL : rawTx.length ≠ 0 := by
    intro h0; simp [expectedCount, h0] at hi
  have hiff := expectedCount_lt_iff bipPath rawTx i hi
  have hcount := expectedCount_pos bipPath rawTx hL
  rw [List.getElem_map, List.getElem_range, List.length_map, List.length_range,
    txByteCount_expected, ← List.map_take, List.take_range,
    Nat.min_eq_left (Nat.le_of_lt hi)]
  constructor
  · intro hlt
    have := hiff.mp hlt
    by_cases h0 : i = 0
    · simp only [h0, if_true]; subst h0; omega
    · simp only [h0, if_false]; omega
  · intro hlast
    have hnot : ¬ (149 - bipPath.length * 4 + 150 * i < rawTx.length) := by
      rw [← hiff]; omega
    cases i with
    | zero =>
      simp only [List.range_zero, List.map_nil, txBytesCarried, if_true]
      omega
    | succ k =>
      rw [txBytesCarried_expected]
      have hprev : 149 - bipPath.length * 4 + 150 * k < rawTx.length := by
        have hk : k < expectedCount bipPath rawTx := by omega
        exact (expectedCount_lt_iff bipPath rawTx k hk).mp (by omega)
      simp only [Nat.succ_ne_zero, if_false, Nat.add_sub_cancel]
      omega

/-- C5 at the path [0x8000002c, 0x800001fc, 0x80000000, 0, 0] and a transaction of 300 bytes. -/
theorem C5_witness :
    ([0x8000002c, 0x800001fc, 0x80000000, 0, 0] : List Nat).length ≤ 37 ∧
    (∀ s ∈ ([0x8000002c, 0x800001fc, 0x80000000, 0, 0] : List Nat), s < 4294967296) ∧
    ∃ apdus : List Apdu,
      signTransactionApdus [0x8000002c, 0x800001fc, 0x80000000, 0, 0] (List.replicate 300 7) false
        = some (.ok (apdus, ((List.replicate 300 7).length : Int))) ∧
      ∀ (i : Nat) (h : i < apdus.length),
        (i + 1 < apdus.length →
          txByteCount [0x8000002c, 0x800001fc, 0x80000000, 0, 0] i apdus[i]
            = if i = 0 then
                150 - 1 - 4 * ([0x8000002c, 0x800001fc, 0x80000000, 0, 0] : List Nat).length
              else 150) ∧
        (i + 1 = apdus.length →
          txByteCount [0x8000002c, 0x800001fc, 0x80000000, 0, 0] i apdus[i]
            = (List.replicate 300 7).length
              - txBytesCarried [0x8000002c, 0x800001fc, 0x80000000, 0, 0] (apdus.take i) ∧
          1 ≤ txByteCount [0x8000002c, 0x800001fc, 0x80000000, 0, 0] i apdus[i] ∧
          txByteCount [0x8000002c, 0x800001fc, 0x80000000, 0, 0] i apdus[i]
            ≤ if i = 0 then
                150 - 1 - 4 * ([0x8000002c, 0x800001fc, 0x80000000, 0, 0] : List Nat).length
              else 150) :=
  ⟨by decide, by decide,
    C5_chunk_sizes [0x8000002c, 0x800001fc, 0x80000000, 0, 0] (List.replicate 300 7) false
      (by decide) (by decide)⟩

/-- C6: for every path of at most 37 segments (unsigned 32-bit each) and every
transaction whose length is exactly the first-chunk capacity
150 - 1 - 4 * segmentCount, `signTransaction` hands exactly one packet to the
transport, with param1 = 0x00 (has-more unset) and a payload of exactly 150
bytes. -/
theorem C6_exact_capacity_single_packet (send : Transport) (bipPath : List Nat)
    (rawTx : Buffer) (ed25519 : Bool) (hn : bipPath.length ≤ 37)
    (hseg : ∀ s ∈ bipPath, s < 4294967296)
    (hlen : (rawTx.length : Int) = 150 - 1 - 4 * (bipPath.length : Int)) :
    ∃ apdu result,
      signTransaction send bipPath rawTx ed25519 = some ([apdu], result) ∧
      apdu.p1 = 0x00 ∧ apdu.data.length = 150 := by
  have hL : rawTx.length ≠ 0 := by omega
  have hcount : expectedCount bipPath rawTx = 1 := by
    rw [expectedCount_pos _ _ hL]; omega
  have happ := signTransactionApdus_eq bipPath rawTx ed25519 hn hseg
  rw [hcount] at happ
  obtain ⟨result, hres⟩ := signTransaction_sent send bipPath rawTx ed25519 _ _ happ
  refine ⟨expectedApdu bipPath rawTx (if ed25519 then 0x80 else 0x40) 0, result, ?_, ?_, ?_⟩
  · rw [hres]
    simp [List.range_succ, sendAll_single]
  · have hm : ¬ (149 - bipPath.length * 4 < rawTx.length) := by omega
    simp [expectedApdu, hm]
  · rw [expectedApdu_zero_length]; omega

/-- C6 at the path [0x8000002c, 0x800001fc, 0x80000000, 0, 0] (capacity 129) and a transaction of 129
bytes, with a transport that answers 0x9000. -/
theorem C6_witness :
    ([0x8000002c, 0x800001fc, 0x80000000, 0, 0] : List Nat).length ≤ 37 ∧
    (∀ s ∈ ([0x8000002c, 0x800001fc, 0x80000000, 0, 0] : List Nat), s < 4294967296) ∧
    (((List.replicate 129 7).length : Int)
      = 150 - 1 - 4 * (([0x8000002c, 0x800001fc, 0x80000000, 0, 0] : List Nat).length : Int)) ∧
    ∃ apdu result,
      signTransaction (fun _ _ => .ok [0x90, 0x00]) [0x8000002c, 0x800001fc, 0x80000000, 0, 0]
        (List.replicate 129 7) false = some ([apdu], result) ∧
      apdu.p1 = 0x00 ∧ apdu.data.length = 150 :=
  ⟨by decide, by decide, by simp,
    C6_exact_capacity_single_packet (fun _ _ => .ok [0x90, 0x00])
      [0x8000002c, 0x800001fc, 0x80000000, 0, 0] (List.replicate 129 7) false
      (by decide) (by decide) (by simp)⟩

/-- C7: for every path of at most 37 segments (unsigned 32-bit each) and every
transaction, the payload of every packet `signTransaction` builds, the path
bytes of the first packet included, is at most 150 bytes long. -/
theorem C7_payload_at_most_150 (bipPath : List Nat) (rawTx : Buffer) (ed25519 : Bool)
    (hn : bipPath.length ≤ 37) (hseg : ∀ s ∈ bipPath, s < 4294967296) :
    ∃ apdus : List Apdu,
      signTransactionApdus bipPath rawTx ed25519 = some (.ok (apdus, (rawTx.length : Int))) ∧
      ∀ apdu ∈ apdus, apdu.data.length ≤ 150 := by
  refine ⟨_, signTransactionApdus_eq bipPath rawTx ed25519 hn hseg, ?_⟩
  intro apdu hmem
  obtain ⟨i, _, rfl⟩ := List.mem_map.mp hmem
  cases i with
  | zero => rw [expectedApdu_zero_length]; omega
  | succ k => rw [expectedApdu_succ_length]; omega

/-- C7 at a path of 37 segments and a transaction of 500 bytes. -/
theorem C7_witness :
    (List.replicate 37 0x80000000).length ≤ 37 ∧
    (∀ s ∈ List.replicate 37 0x80000000, s < 4294967296) ∧
    ∃ apdus : List Apdu,
      signTransactionApdus (List.replicate 37 0x80000000) (List.replicate 500 7) false
        = some (.ok (apdus, ((List.replicate 500 7).length : Int))) ∧
      ∀ apdu ∈ apdus, apdu.data.length ≤ 150 :=
  ⟨by decide, by decide,
    C7_payload_at_most_150 (List.replicate 37 0x80000000) (List.replicate 500 7) false
      (by decide) (by decide)⟩

/-- C8 (as amended): for every path of N segments with N ≤ 127, each segment an
unsigned 32-bit integer, the payload of the packet `getAddress` hands to the
transport is exactly 1 + 4N bytes, one byte equal to N followed by each segment
as a big-endian unsigned 32-bit integer in path order; and when moreover
N ≤ 37 and the transaction is not empty, the payload of the first packet
`signTransaction` builds begins with those same 1 + 4N bytes. -/
theorem C8_path_bytes (bipPath : List Nat) (hn : bipPath.length ≤ 127)
    (hseg : ∀ s ∈ bipPath, s < 4294967296) :
    (∀ (send : Transport) (display chainCode ed25519 : Bool), ∃ apdu result,
      getAddress send bipPath display chainCode ed25519 = ([apdu], result) ∧
      apdu.data = bipPath.length :: bipPath.flatMap be32 ∧
      apdu.data = specEncodePath bipPath ∧
      apdu.data.length = 1 + 4 * bipPath.length) ∧
    (bipPath.length ≤ 37 → ∀ (rawTx : Buffer) (ed25519 : Bool), rawTx ≠ [] →
      ∃ first rest,
        signTransactionApdus bipPath rawTx ed25519
          = some (.ok (first :: rest, (rawTx.length : Int))) ∧
        first.data.take (1 + 4 * bipPath.length) = specEncodePath bipPath) := by
  constructor
  · intro send display chainCode ed25519
    obtain ⟨result, hres⟩ := getAddress_sent send bipPath display chainCode ed25519 _
      (getAddressApdu_eq bipPath display chainCode ed25519 hn hseg)
    refine ⟨_, result, hres, rfl, rfl, ?_⟩
    simp only [specEncodePath_length]; omega
  · intro hn37 rawTx ed25519 hne
    have hL : rawTx.length ≠ 0 := by
      intro h; exact hne (List.length_eq_zero.mp h)
    have happ := signTransactionApdus_eq bipPath rawTx ed25519 hn37 hseg
    have hcount : expectedCount bipPath rawTx
        = (expectedCount bipPath rawTx - 1) + 1 := by
      unfold expectedCount; rw [if_neg hL]; omega
    rw [hcount, List.range_succ_eq_map, List.map_cons] at happ
    refine ⟨_, _, happ, ?_⟩
    simp only [expectedApdu, if_true]
    exact List.take_left' (by rw [specEncodePath_length]; omega)

/-- C8 at the path [0x8000002c, 0x800001fc, 0x80000000, 0, 0]. -/
theorem C8_witness :
    ([0x8000002c, 0x800001fc, 0x80000000, 0, 0] : List Nat).length ≤ 127 ∧
    (∀ s ∈ ([0x8000002c, 0x800001fc, 0x80000000, 0, 0] : List Nat), s < 4294967296) ∧
    (∀ (send : Transport) (display chainCode ed25519 : Bool), ∃ apdu result,
      getAddress send [0x8000002c, 0x800001fc, 0x80000000, 0, 0] display chainCode ed25519
        = ([apdu], result) ∧
      apdu.data = ([0x8000002c, 0x800001fc, 0x80000000, 0, 0] : List Nat).length
        :: ([0x8000002c, 0x800001fc, 0x80000000, 0, 0] : List Nat).flatMap be32 ∧
      apdu.data = specEncodePath [0x8000002c, 0x800001fc, 0x80000000, 0, 0] ∧
      apdu.data.length = 1 + 4 * ([0x8000002c, 0x800001fc, 0x80000000, 0, 0] : List Nat).length) ∧
    (([0x8000002c, 0x800001fc, 0x80000000, 0, 0] : List Nat).length ≤ 37 →
      ∀ (rawTx : Buffer) (ed25519 : Bool), rawTx ≠ [] →
      ∃ first rest,
        signTransactionApdus [0x8000002c, 0x800001fc, 0x80000000, 0, 0] rawTx ed25519
          = some (.ok (first :: rest, (rawTx.length : Int))) ∧
        first.data.take (1 + 4 * ([0x8000002c, 0x800001fc, 0x80000000, 0, 0] : List Nat).length)
          = specEncodePath [0x8000002c, 0x800001fc, 0x80000000, 0, 0]) :=
  ⟨by decide, by decide,
    C8_path_bytes [0x8000002c, 0x800001fc, 0x80000000, 0, 0] (by decide) (by decide)⟩

/-- C8 (as stated) fails: for a path of 128 segments, all zero, `getAddress`
hands no packet to the transport, so there is no request payload of
1 + 4 * 128 bytes. -/
theorem C8_counterexample :
    ¬ ∃ apdu result, getAddress (fun _ _ => .ok [0x90, 0x00]) (List.replicate 128 0)
        false false false = ([apdu], result) ∧ apdu.data.length = 1 + 4 * 128 := by
  rintro ⟨apdu, result, h, _⟩
  rw [getAddress_rangeError _ _ _ _ _ (by rw [List.length_replicate]; omega)] at h
  simp at h

/-- C9 (as amended): for every path of N segments with N ≤ 127, each segment an
unsigned 32-bit integer, decoding the payload `getAddress` hands to the
transport (first byte as an unsigned count, then that many big-endian unsigned
32-bit integers) recovers N and the segment values in order. -/
theorem C9_path_round_trip (bipPath : List Nat) (hn : bipPath.length ≤ 127)
    (hseg : ∀ s ∈ bipPath, s < 4294967296) (send : Transport)
    (display chainCode ed25519 : Bool) :
    ∃ apdu result,
      getAddress send bipPath display chainCode ed25519 = ([apdu], result) ∧
      specDecodePath apdu.data = some (bipPath.length, bipPath) := by
  obtain ⟨result, hres⟩ := getAddress_sent send bipPath display chainCode ed25519 _
    (getAddressApdu_eq bipPath display chainCode ed25519 hn hseg)
  exact ⟨_, result, hres, specDecodePath_specEncodePath bipPath hseg⟩

/-- C9 at the path [0x8000002c, 0x800001fc, 0x80000000, 0, 0]. -/
theorem C9_witness :
    ([0x8000002c, 0x800001fc, 0x80000000, 0, 0] : List Nat).length ≤ 127 ∧
    (∀ s ∈ ([0x8000002c, 0x800001fc, 0x80000000, 0, 0] : List Nat), s < 4294967296) ∧
    ∃ apdu result,
      getAddress (fun _ _ => .ok [0x90, 0x00]) [0x8000002c, 0x800001fc, 0x80000000, 0, 0]
        true false true = ([apdu], result) ∧
      specDecodePath apdu.data
        = some (([0x8000002c, 0x800001fc, 0x80000000, 0, 0] : List Nat).length,
            [0x8000002c, 0x800001fc, 0x80000000, 0, 0]) :=
  ⟨by decide, by decide,
    C9_path_round_trip [0x8000002c, 0x800001fc, 0x80000000, 0, 0] (by decide) (by decide)
      (fun _ _ => .ok [0x90, 0x00]) true false true⟩

/-- C9 (as stated) fails: for a path of 255 segments, all equal to 7, the code
encodes nothing, so no encoded payload decodes to the path. -/
theorem C9_counterexample :
    ¬ ∃ apdu, getAddressApdu (List.replicate 255 7) false false false = .ok apdu ∧
        specDecodePath apdu.data = some (255, List.replicate 255 7) := by
  rintro ⟨apdu, h, _⟩
  rw [getAddressApdu_rangeError _ _ _ _ (by rw [List.length_replicate]; omega)] at h
  simp at h

/-- C10: for every path of more than 255 segments, every choice of the flags
and every transport, `getAddress` fails with an error and hands no packet to
the transport. -/
theorem C10_long_path_rejected (send : Transport) (bipPath : List Nat)
    (display chainCode ed25519 : Bool) (hn : 255 < bipPath.length) :
    getAddress send bipPath display chainCode ed25519 = ([], .error .rangeError) :=
  getAddress_rangeError send bipPath display chainCode ed25519 (by omega)

/-- C10 at a path of 256 segments. -/
theorem C10_witness :
    255 < (List.replicate 256 0x80000000).length ∧
    getAddress (fun _ _ => .ok [0x90, 0x00]) (List.replicate 256 0x80000000) true true false
      = ([], .error .rangeError) :=
  ⟨by rw [List.length_replicate]; decide,
    C10_long_path_rejected (fun _ _ => .ok [0x90, 0x00])
      (List.replicate 256 0x80000000) true true false (by rw [List.length_replicate]; decide)⟩

/-! ## Response parsing, the send loop and reassembly -/

theorem slice_nat (buf : Buffer) (a b : Nat) :
    slice buf (some (a : Int)) (some ((a : Int) + (b : Int))) = (buf.drop a).take b := by
  unfold slice adjustOffset
  have h1 : ¬ ((a : Int) < 0) := by omega
  have h2 : ¬ ((a : Int) + (b : Int) < 0) := by omega
  simp only [if_neg h1, if_neg h2]
  have e1 : ((a : Int)).toNat = a := by omega
  have e2 : ((a : Int) + (b : Int)).toNat = a + b := by omega
  rw [e1, e2]
  by_cases ha : a ≤ buf.length
  · rw [Nat.min_eq_left ha]
    by_cases hb : a + b ≤ buf.length
    · rw [Nat.min_eq_left hb, Nat.add_sub_cancel_left]
    · rw [Nat.min_eq_right (by omega),
        List.take_of_length_le (by rw [List.length_drop]),
        List.take_of_length_le (by rw [List.length_drop]; omega)]
  · rw [Nat.min_eq_right (by omega), Nat.min_eq_right (by omega), Nat.sub_self,
      List.drop_of_length_le (by omega)]
    simp
    omega

theorem slice_nan_stop (buf : Buffer) (start : Option Int) : slice buf start none = [] := by
  unfold slice
  simp [adjustOffset]

theorem toHex_length (buf : Buffer) : (toHex buf).length = 2 * buf.length := by
  unfold toHex
  rw [String.length_mk]
  induction buf with
  | nil => rfl
  | cons b rest ih =>
    simp only [List.flatMap_cons, List.length_append, List.length_cons, List.length_nil, ih]
    omega

theorem toAscii_of_lt (buf : Buffer) (h : ∀ b ∈ buf, b < 128) :
    toAscii buf = String.mk (buf.map Char.ofNat) := by
  unfold toAscii
  congr 1
  apply List.map_congr_left
  intro b hb
  rw [Nat.mod_eq_of_lt (h b hb)]

/-- The result of `parseAddress` when both length bytes are inside the
response, whatever its total length. -/
theorem parseAddress_lengths (response : Buffer) (chainCode : Bool) (n m : Nat)
    (hn : response.get? 0 = some n) (hm : response.get? (1 + n) = some m) :
    parseAddress response chainCode =
      { publicKey := toHex ((response.drop 1).take n)
        address := toAscii ((response.drop (1 + n + 1)).take m)
        chainCode :=
          if chainCode then some (toHex ((response.drop (1 + n + 1 + m)).take 32)) else none } := by
  have s1 := slice_nat response 1 n
  have s2 := slice_nat response (1 + n + 1) m
  have s3 := slice_nat response (1 + n + 1 + m) 32
  simp only [parseAddress, byteAt, hn, jsAdd, hm, toOffset, Option.map_some']
  push_cast at s1 s2 s3 ⊢
  simp only [Int.ofNat_eq_coe]
  push_cast
  rw [s1, s2, s3]

/-- The result of `parseAddress` when the first length byte is inside the
response and the second is not. -/
theorem parseAddress_no_address_length (response : Buffer) (chainCode : Bool) (n : Nat)
    (hn : response.get? 0 = some n) (hm : response.get? (1 + n) = none) :
    parseAddress response chainCode =
      { publicKey := toHex ((response.drop 1).take n)
        address := ""
        chainCode := if chainCode then some "" else none } := by
  have s1 := slice_nat response 1 n
  simp only [parseAddress, byteAt, hn, jsAdd, hm, toOffset, Option.map_some', Option.map_none',
    slice_nan_stop]
  push_cast at s1 ⊢
  simp only [Int.ofNat_eq_coe]
  push_cast
  rw [s1]
  rfl

/-- The result of `parseAddress` on the empty response. -/
theorem parseAddress_nil (chainCode : Bool) :
    parseAddress [] chainCode =
      { publicKey := "", address := "", chainCode := if chainCode then some "" else none } := by
  cases chainCode <;> rfl

theorem getAddress_ok (send : Transport) (bipPath : List Nat)
    (display chainCode ed25519 : Bool) (response : Buffer)
    (hn : bipPath.length ≤ 127) (hseg : ∀ s ∈ bipPath, s < 4294967296)
    (hsend : ∀ apdu, send [] apdu = .ok response) :
    getAddress send bipPath display chainCode ed25519
      = ([{ cla := 0xe0, ins := 0x02, p1 := if display then 0x01 else 0x00,
            p2 := (if ed25519 then 0x80 else 0x40) ||| (if chainCode then 0x01 else 0x00),
            data := specEncodePath bipPath }],
         .ok (parseAddress response chainCode)) := by
  unfold getAddress
  rw [getAddressApdu_eq bipPath display chainCode ed25519 hn hseg]
  dsimp only
  rw [hsend]

theorem signTransaction_long_path (send : Transport) (bipPath : List Nat) (rawTx : Buffer)
    (ed25519 : Bool) (hn : 37 < bipPath.length) (htx : rawTx ≠ []) :
    signTransaction send bipPath rawTx ed25519 = some ([], .error .rangeError) := by
  have hpos : 0 < rawTx.length := List.length_pos.mpr htx
  have hne : ¬ ((0 : Int) = (rawTx.length : Int)) := by omega
  unfold signTransaction signTransactionApdus
  dsimp only
  rw [chunkLoop, if_neg hne, buildApdu_long_path bipPath rawTx _ hn hpos]

theorem signTransaction_empty (send : Transport) (bipPath : List Nat) (ed25519 : Bool) :
    signTransaction send bipPath [] ed25519 = some ([], .ok "") := by
  simp [signTransaction, signTransactionApdus, chunkLoop, sendAll, toHex, slice, adjustOffset]

theorem take_drop_agree (r1 r2 : Buffer) (k a b : Nat) (h : r1.take k = r2.take k)
    (hab : a + b ≤ k) : (r1.drop a).take b = (r2.drop a).take b := by
  have e : ∀ r : Buffer, (r.drop a).take b = ((r.take k).drop a).take b := by
    intro r
    rw [List.drop_take, List.take_take, Nat.min_eq_left (by omega)]
  rw [e r1, e r2, h]

theorem getElem?_agree (r1 r2 : Buffer) (k i : Nat) (h : r1.take k = r2.take k) (hi : i < k) :
    r1[i]? = r2[i]? := by
  have e1 : (r1.take k)[i]? = r1[i]? := List.getElem?_take_of_lt hi
  have e2 : (r2.take k)[i]? = r2[i]? := List.getElem?_take_of_lt hi
  rw [← e1, h, e2]

theorem sendAll_all_ok (send : Transport) :
    ∀ (apdus sent : List Apdu) (r0 : Buffer),
      (∀ j a, apdus[j]? = some a → ∃ resp, send (sent ++ apdus.take j) a = .ok resp) →
      ∃ r, sendAll send sent r0 apdus = (sent ++ apdus, .ok r) ∧
        (apdus = [] → r = r0) ∧
        (∀ init last, apdus = init ++ [last] → send (sent ++ init) last = .ok r) := by
  intro apdus
  induction apdus with
  | nil =>
    intro sent r0 _
    refine ⟨r0, by simp [sendAll], fun _ => rfl, ?_⟩
    intro init last h
    simp at h
  | cons a rest ih =>
    intro sent r0 hok
    obtain ⟨resp, hresp⟩ := hok 0 a List.getElem?_cons_zero
    simp only [List.take_zero, List.append_nil] at hresp
    have hrest : ∀ j b, rest[j]? = some b →
        ∃ resp1, send (sent ++ [a] ++ rest.take j) b = .ok resp1 := by
      intro j b hj
      have := hok (j + 1) b (by rw [List.getElem?_cons_succ]; exact hj)
      simpa [List.take_succ_cons, List.append_assoc] using this
    obtain ⟨r, hr, hnil, hlast⟩ := ih (sent ++ [a]) resp hrest
    refine ⟨r, ?_, fun h => by simp at h, ?_⟩
    · rw [sendAll, hresp]
      simpa [List.append_assoc] using hr
    · intro init last h
      cases init with
      | nil =>
        simp only [List.nil_append, List.cons.injEq] at h
        obtain ⟨rfl, hrest0⟩ := h
        rw [hnil hrest0, List.append_nil]
        exact hresp
      | cons b init1 =>
        simp only [List.cons_append, List.cons.injEq] at h
        obtain ⟨rfl, hrest0⟩ := h
        have := hlast init1 last hrest0
        simpa [List.append_assoc] using this

theorem sendAll_fail (send : Transport) :
    ∀ (apdus sent : List Apdu) (r0 : Buffer) (i : Nat) (a : Apdu) (e : Nat),
      apdus[i]? = some a →
      (∀ j b, j < i → apdus[j]? = some b → ∃ resp, send (sent ++ apdus.take j) b = .ok resp) →
      send (sent ++ apdus.take i) a = .error e →
      sendAll send sent r0 apdus = (sent ++ apdus.take (i + 1), .error (.transport e)) := by
  intro apdus
  induction apdus with
  | nil => intro sent r0 i a e h; simp at h
  | cons b rest ih =>
    intro sent r0 i a e hi hok hfail
    cases i with
    | zero =>
      simp only [List.getElem?_cons_zero, Option.some.injEq] at hi
      subst hi
      simp only [List.take_zero, List.append_nil] at hfail
      rw [sendAll, hfail]
      simp
    | succ k =>
      obtain ⟨resp, hresp⟩ := hok 0 b (by omega) List.getElem?_cons_zero
      simp only [List.take_zero, List.append_nil] at hresp
      rw [List.getElem?_cons_succ] at hi
      have hok1 : ∀ j c, j < k → rest[j]? = some c →
          ∃ resp1, send (sent ++ [b] ++ rest.take j) c = .ok resp1 := by
        intro j c hj hc
        have := hok (j + 1) c (by omega) (by rw [List.getElem?_cons_succ]; exact hc)
        simpa [List.take_succ_cons, List.append_assoc] using this
      have hfail1 : send (sent ++ [b] ++ rest.take k) a = .error e := by
        simpa [List.take_succ_cons, List.append_assoc] using hfail
      rw [sendAll, hresp]
      have := ih (sent ++ [b]) resp k a e hi hok1 hfail1
      simpa [List.take_succ_cons, List.append_assoc] using this

theorem signTransaction_of_sendAll (send : Transport) (bipPath : List Nat) (rawTx : Buffer)
    (ed25519 : Bool) (apdus : List Apdu) (offset : Int)
    (h : signTransactionApdus bipPath rawTx ed25519 = some (.ok (apdus, offset))) :
    signTransaction send bipPath rawTx ed25519 =
      some ((sendAll send [] [] apdus).1,
        match (sendAll send [] [] apdus).2 with
        | .error e => .error e
        | .ok response =>
          .ok (toHex (slice response (some 0) (some ((response.length : Int) - 2))))) := by
  unfold signTransaction
  rw [h]
  dsimp only
  rcases hs : sendAll send [] [] apdus with ⟨sent, e | response⟩ <;> rfl

theorem slice_strip_status (response : Buffer) (h : 2 ≤ response.length) :
    slice response (some 0) (some ((response.length : Int) - 2))
      = response.take (response.length - 2) := by
  have := slice_nat response 0 (response.length - 2)
  have e : ((0 : Nat) : Int) + ((response.length - 2 : Nat) : Int)
      = (response.length : Int) - 2 := by omega
  rw [e] at this
  simpa using this

theorem flatten_chunks (l : Buffer) (k : Nat) :
    ((List.range k).map fun i => (l.drop (150 * i)).take 150).flatten = l.take (150 * k) := by
  induction k with
  | zero => simp
  | succ k ih =>
    rw [List.range_succ, List.map_append, List.flatten_append, ih, List.map_singleton,
      List.flatten_cons, List.flatten_nil, List.append_nil, Nat.mul_succ, List.take_add]

/-! ## The claims on long paths, responses and sending -/

/-- C11 (as amended): for every path of more than 255 segments, every
transaction and every transport, `signTransaction` hands no packet to the
transport, and when the transaction is not empty it fails with an error (a
`RangeError`). -/
theorem C11_long_path_sign (send : Transport) (bipPath : List Nat) (rawTx : Buffer)
    (ed25519 : Bool) (hn : 255 < bipPath.length) :
    (∃ outcome, signTransaction send bipPath rawTx ed25519 = some ([], outcome)) ∧
    (rawTx ≠ [] → signTransaction send bipPath rawTx ed25519 = some ([], .error .rangeError)) := by
  constructor
  · by_cases htx : rawTx = []
    · subst htx
      exact ⟨_, signTransaction_empty send bipPath ed25519⟩
    · exact ⟨_, signTransaction_long_path send bipPath rawTx ed25519 (by omega) htx⟩
  · intro htx
    exact signTransaction_long_path send bipPath rawTx ed25519 (by omega) htx

/-- C11 at a path of 256 segments and a transaction of 3 bytes. -/
theorem C11_witness :
    255 < (List.replicate 256 0x80000000).length ∧
    (∃ outcome, signTransaction (fun _ _ => .ok [0x90, 0x00]) (List.replicate 256 0x80000000)
      [1, 2, 3] false = some ([], outcome)) ∧
    (([1, 2, 3] : Buffer) ≠ [] →
      signTransaction (fun _ _ => .ok [0x90, 0x00]) (List.replicate 256 0x80000000)
        [1, 2, 3] false = some ([], .error .rangeError)) :=
  ⟨by rw [List.length_replicate]; decide,
    C11_long_path_sign (fun _ _ => .ok [0x90, 0x00]) (List.replicate 256 0x80000000)
      [1, 2, 3] false (by rw [List.length_replicate]; decide)⟩

/-- C11 (as stated) fails: for a path of 256 segments and the transaction of 0
bytes `signTransaction` does not fail with an error. -/
theorem C11_counterexample :
    ¬ ∃ sent e, signTransaction (fun _ _ => .ok [0x90, 0x00]) (List.replicate 256 0x80000000)
        [] false = some (sent, .error e) := by
  rintro ⟨sent, e, h⟩
  rw [signTransaction_empty] at h
  simp at h

/-- C12: for every response made of a byte N, N public-key bytes, a byte M, M
address bytes each below 0x80, then (when the chain code is requested) 32
chain-code bytes, then any trailing bytes, `getAddress` returns publicKey = the
lowercase hex of the N public-key bytes, address = the M address bytes as ASCII
characters, and chainCode = the lowercase hex of the 32 chain-code bytes when
requested, no chainCode otherwise. -/
theorem C12_address_response (send : Transport) (bipPath : List Nat)
    (display chainCode ed25519 : Bool) (pk addr cc trailing response : Buffer)
    (hn : bipPath.length ≤ 127) (hseg : ∀ s ∈ bipPath, s < 4294967296)
    (haddr : ∀ b ∈ addr, b < 128) (hcc : chainCode = true → cc.length = 32)
    (hresp : response = pk.length :: pk ++ addr.length :: addr
      ++ (if chainCode then cc else []) ++ trailing)
    (hsend : ∀ apdu, send [] apdu = .ok response) :
    ∃ apdu, getAddress send bipPath display chainCode ed25519
      = ([apdu], .ok { publicKey := toHex pk
                       address := String.mk (addr.map Char.ofNat)
                       chainCode := if chainCode then some (toHex cc) else none }) := by
  have h0 : response.get? 0 = some pk.length := by rw [hresp]; rfl
  have hshape : response = [pk.length] ++ pk ++ ([addr.length] ++ addr
      ++ ((if chainCode then cc else []) ++ trailing)) := by
    rw [hresp]; simp
  have h1 : response.get? (1 + pk.length) = some addr.length := by
    rw [hshape, List.get?_eq_getElem?,
      List.getElem?_append_right (by simp; omega)]
    have e : 1 + pk.length - ([pk.length] ++ pk).length = 0 := by simp; omega
    rw [e]
    simp
  have hdrop1 : response.drop 1 = pk ++ ([addr.length] ++ addr
      ++ ((if chainCode then cc else []) ++ trailing)) := by
    rw [hshape]; simp
  have hdrop2 : response.drop (1 + pk.length + 1) = addr
      ++ ((if chainCode then cc else []) ++ trailing) := by
    rw [show 1 + pk.length + 1 = 1 + (pk.length + 1) by omega, ← List.drop_drop, hdrop1,
      ← List.drop_drop, List.drop_left]
    simp
  have hdrop3 : response.drop (1 + pk.length + 1 + addr.length)
      = (if chainCode then cc else []) ++ trailing := by
    rw [← List.drop_drop, hdrop2, List.drop_left]
  have hparse : parseAddress response chainCode
      = { publicKey := toHex pk
          address := String.mk (addr.map Char.ofNat)
          chainCode := if chainCode then some (toHex cc) else none } := by
    rw [parseAddress_lengths response chainCode pk.length addr.length h0 h1, hdrop1, hdrop2,
      hdrop3, List.take_left, List.take_left, toAscii_of_lt addr haddr]
    cases chainCode with
    | false => rfl
    | true =>
      have := hcc rfl
      simp only [if_true]
      rw [← this, List.take_left]
  rw [getAddress_ok send bipPath display chainCode ed25519 response hn hseg hsend, hparse]
  exact ⟨_, rfl⟩

/-- C12 at the path [0x8000002c, 0x800001fc, 0x80000000, 0, 0] and the response
04 aa bb cc dd 02 61 62 followed by 32 bytes 0x11 and the status word: the
result is publicKey aabbccdd, address ab and 64 hex digits 1 as chainCode. -/
theorem C12_witness :
    ∃ apdu, getAddress
        (fun _ _ => .ok ([4, 0xaa, 0xbb, 0xcc, 0xdd, 2, 97, 98] ++ List.replicate 32 0x11
          ++ [0x90, 0x00]))
        [0x8000002c, 0x800001fc, 0x80000000, 0, 0] false true false
      = ([apdu], .ok { publicKey := "aabbccdd"
                       address := "ab"
                       chainCode := some
                         "1111111111111111111111111111111111111111111111111111111111111111" }) :=
  C12_address_response
    (fun _ _ => .ok ([4, 0xaa, 0xbb, 0xcc, 0xdd, 2, 97, 98] ++ List.replicate 32 0x11
      ++ [0x90, 0x00]))
    [0x8000002c, 0x800001fc, 0x80000000, 0, 0] false true false
    [0xaa, 0xbb, 0xcc, 0xdd] [97, 98] (List.replicate 32 0x11) [0x90, 0x00]
    ([4, 0xaa, 0xbb, 0xcc, 0xdd, 2, 97, 98] ++ List.replicate 32 0x11 ++ [0x90, 0x00])
    (by decide) (by decide) (by decide) (fun _ => rfl) rfl (fun _ => rfl)

/-- C13 (as amended): for every response, also one too short for the length
bytes it declares, `getAddress` does not fail with a decoding error: it returns
a result whose publicKey is the hex of the bytes present at offsets 1 to N and
whose address is the ASCII text of the bytes present at offsets 1 + N + 1 to
1 + N + M, both cut to what the response holds (N = byte 0, M = byte 1 + N);
publicKey and address are empty for the empty response, and the address is
empty when byte 1 + N is absent. -/
theorem C13_short_response_is_truncated (send : Transport) (bipPath : List Nat)
    (display chainCode ed25519 : Bool) (response : Buffer)
    (hn : bipPath.length ≤ 127) (hseg : ∀ s ∈ bipPath, s < 4294967296)
    (hsend : ∀ apdu, send [] apdu = .ok response) :
    ∃ apdu result,
      getAddress send bipPath display chainCode ed25519 = ([apdu], .ok result) ∧
      (response = [] → result.publicKey = "" ∧ result.address = "") ∧
      (∀ n, response.get? 0 = some n →
        result.publicKey = toHex ((response.drop 1).take n) ∧
        (response.get? (1 + n) = none → result.address = "") ∧
        (∀ m, response.get? (1 + n) = some m →
          result.address = toAscii ((response.drop (1 + n + 1)).take m))) := by
  refine ⟨_, parseAddress response chainCode,
    getAddress_ok send bipPath display chainCode ed25519 response hn hseg hsend, ?_, ?_⟩
  · intro h
    rw [h, parseAddress_nil]
    exact ⟨rfl, rfl⟩
  · intro n h0
    refine ⟨?_, ?_, ?_⟩
    · cases h1 : response.get? (1 + n) with
      | none => rw [parseAddress_no_address_length response chainCode n h0 h1]
      | some m => rw [parseAddress_lengths response chainCode n m h0 h1]
    · intro h1
      rw [parseAddress_no_address_length response chainCode n h0 h1]
    · intro m h1
      rw [parseAddress_lengths response chainCode n m h0 h1]

/-- C13 at the path [0x8000002c, 0x800001fc, 0x80000000, 0, 0] and the response
04 aa 90 00, which declares 4 public-key bytes and holds 3 bytes after the
length byte. -/
theorem C13_witness :
    ([0x8000002c, 0x800001fc, 0x80000000, 0, 0] : List Nat).length ≤ 127 ∧
    (∀ s ∈ ([0x8000002c, 0x800001fc, 0x80000000, 0, 0] : List Nat), s < 4294967296) ∧
    ∃ apdu result,
      getAddress (fun _ _ => .ok [4, 0xaa, 0x90, 0x00]) [0x8000002c, 0x800001fc, 0x80000000, 0, 0]
        false false false = ([apdu], .ok result) ∧
      (([4, 0xaa, 0x90, 0x00] : Buffer) = [] → result.publicKey = "" ∧ result.address = "") ∧
      (∀ n, ([4, 0xaa, 0x90, 0x00] : Buffer).get? 0 = some n →
        result.publicKey = toHex ((([4, 0xaa, 0x90, 0x00] : Buffer).drop 1).take n) ∧
        (([4, 0xaa, 0x90, 0x00] : Buffer).get? (1 + n) = none → result.address = "") ∧
        (∀ m, ([4, 0xaa, 0x90, 0x00] : Buffer).get? (1 + n) = some m →
          result.address = toAscii ((([4, 0xaa, 0x90, 0x00] : Buffer).drop (1 + n + 1)).take m))) :=
  ⟨by decide, by decide,
    C13_short_response_is_truncated (fun _ _ => .ok [4, 0xaa, 0x90, 0x00])
      [0x8000002c, 0x800001fc, 0x80000000, 0, 0] false false false [4, 0xaa, 0x90, 0x00]
      (by decide) (by decide) (fun _ => rfl)⟩

/-- C13 (as stated) fails: with the path [0x8000002c, 0x800001fc, 0x80000000, 0, 0]
and the response 04 aa 90 00 (4 public-key bytes declared, 3 bytes present, no
address length) `getAddress` does not fail; it returns publicKey aa9000 and an
empty address. -/
theorem C13_counterexample :
    (getAddress (fun _ _ => .ok [4, 0xaa, 0x90, 0x00]) [0x8000002c, 0x800001fc, 0x80000000, 0, 0]
        false false false).2
      = .ok { publicKey := "aa9000", address := "", chainCode := none } ∧
    ¬ ∃ e, (getAddress (fun _ _ => .ok [4, 0xaa, 0x90, 0x00]) [0x8000002c, 0x800001fc, 0x80000000, 0, 0]
        false false false).2 = .error e := by
  have h := getAddress_ok (fun _ _ => .ok [4, 0xaa, 0x90, 0x00]) [0x8000002c, 0x800001fc, 0x80000000, 0, 0]
    false false false [4, 0xaa, 0x90, 0x00] (by decide) (by decide) (fun _ => rfl)
  rw [h]
  refine ⟨rfl, ?_⟩
  rintro ⟨e, he⟩
  cases he

/-- C14 (as amended): for every response, `getAddress` with chainCode = true
does not fail on a short response; its chainCode is the hex of the at most 32
bytes that follow the address bytes: exactly 32 bytes (64 hex characters) when
at least 32 follow, all the bytes that follow (fewer than 64 hex characters)
otherwise, and the empty string when a length byte is absent. -/
theorem C14_chain_code (send : Transport) (bipPath : List Nat)
    (display ed25519 : Bool) (response : Buffer)
    (hn : bipPath.length ≤ 127) (hseg : ∀ s ∈ bipPath, s < 4294967296)
    (hsend : ∀ apdu, send [] apdu = .ok response) :
    ∃ apdu result,
      getAddress send bipPath display true ed25519 = ([apdu], .ok result) ∧
      (∀ n m, response.get? 0 = some n → response.get? (1 + n) = some m →
        ∃ code, result.chainCode = some code ∧
          code = toHex ((response.drop (1 + n + 1 + m)).take 32) ∧
          code.length = 2 * min 32 (response.length - (1 + n + 1 + m))) ∧
      (response.get? 0 = none → result.chainCode = some "") ∧
      (∀ n, response.get? 0 = some n → response.get? (1 + n) = none →
        result.chainCode = some "") := by
  refine ⟨_, parseAddress response true,
    getAddress_ok send bipPath display true ed25519 response hn hseg hsend, ?_, ?_, ?_⟩
  · intro n m h0 h1
    rw [parseAddress_lengths response true n m h0 h1]
    refine ⟨_, rfl, rfl, ?_⟩
    rw [toHex_length, List.length_take, List.length_drop]
  · intro h0
    have hnil : response = [] := by
      cases response with
      | nil => rfl
      | cons b rest => simp at h0
    rw [hnil, parseAddress_nil]
    rfl
  · intro n h0 h1
    rw [parseAddress_no_address_length response true n h0 h1]
    rfl

/-- C14 at the path [0x8000002c, 0x800001fc, 0x80000000, 0, 0] and the response
01 aa 01 61 90 00, where 2 bytes follow the address. -/
theorem C14_witness :
    ([0x8000002c, 0x800001fc, 0x80000000, 0, 0] : List Nat).length ≤ 127 ∧
    (∀ s ∈ ([0x8000002c, 0x800001fc, 0x80000000, 0, 0] : List Nat), s < 4294967296) ∧
    ∃ apdu result,
      getAddress (fun _ _ => .ok [1, 0xaa, 1, 0x61, 0x90, 0x00])
        [0x8000002c, 0x800001fc, 0x80000000, 0, 0] false true false = ([apdu], .ok result) ∧
      (∀ n m, ([1, 0xaa, 1, 0x61, 0x90, 0x00] : Buffer).get? 0 = some n →
        ([1, 0xaa, 1, 0x61, 0x90, 0x00] : Buffer).get? (1 + n) = some m →
        ∃ code, result.chainCode = some code ∧
          code = toHex ((([1, 0xaa, 1, 0x61, 0x90, 0x00] : Buffer).drop (1 + n + 1 + m)).take 32) ∧
          code.length
            = 2 * min 32 (([1, 0xaa, 1, 0x61, 0x90, 0x00] : Buffer).length - (1 + n + 1 + m))) ∧
      (([1, 0xaa, 1, 0x61, 0x90, 0x00] : Buffer).get? 0 = none → result.chainCode = some "") ∧
      (∀ n, ([1, 0xaa, 1, 0x61, 0x90, 0x00] : Buffer).get? 0 = some n →
        ([1, 0xaa, 1, 0x61, 0x90, 0x00] : Buffer).get? (1 + n) = none →
        result.chainCode = some "") :=
  ⟨by decide, by decide,
    C14_chain_code (fun _ _ => .ok [1, 0xaa, 1, 0x61, 0x90, 0x00])
      [0x8000002c, 0x800001fc, 0x80000000, 0, 0] false false [1, 0xaa, 1, 0x61, 0x90, 0x00]
      (by decide) (by decide) (fun _ => rfl)⟩

/-- C14 (as stated) fails: with the path [0x8000002c, 0x800001fc, 0x80000000, 0, 0]
and the response 01 aa 01 61 90 00, where only 2 bytes follow the address,
`getAddress` with chainCode = true neither fails nor returns 64 hex characters:
it returns the chainCode 9000. -/
theorem C14_counterexample :
    (getAddress (fun _ _ => .ok [1, 0xaa, 1, 0x61, 0x90, 0x00])
        [0x8000002c, 0x800001fc, 0x80000000, 0, 0] false true false).2
      = .ok { publicKey := "aa", address := "a", chainCode := some "9000" } ∧
    ¬ ((∃ e, (getAddress (fun _ _ => .ok [1, 0xaa, 1, 0x61, 0x90, 0x00])
          [0x8000002c, 0x800001fc, 0x80000000, 0, 0] false true false).2 = .error e) ∨
       (∃ result code, (getAddress (fun _ _ => .ok [1, 0xaa, 1, 0x61, 0x90, 0x00])
          [0x8000002c, 0x800001fc, 0x80000000, 0, 0] false true false).2 = .ok result ∧
          result.chainCode = some code ∧ code.length = 64)) := by
  have h := getAddress_ok (fun _ _ => .ok [1, 0xaa, 1, 0x61, 0x90, 0x00])
    [0x8000002c, 0x800001fc, 0x80000000, 0, 0] false true false [1, 0xaa, 1, 0x61, 0x90, 0x00]
    (by decide) (by decide) (fun _ => rfl)
  rw [h]
  have hp : parseAddress [1, 0xaa, 1, 0x61, 0x90, 0x00] true
      = { publicKey := "aa", address := "a", chainCode := some "9000" } := by rfl
  refine ⟨by rw [hp], ?_⟩
  rintro (⟨e, he⟩ | ⟨result, code, hres, hcode, hlen⟩)
  · cases he
  · simp only [hp] at hres
    injection hres with hres
    rw [← hres] at hcode
    injection hcode with hcode
    rw [← hcode] at hlen
    revert hlen
    decide

/-- C15: for two responses that agree on their first 1 + N + 1 + M bytes
(N = byte 0, M = byte 1 + N), in particular two responses that are both at
least that long, `getAddress` with chainCode = false returns the same result
for both, and that result has no chainCode. -/
theorem C15_no_read_past_address (send1 send2 : Transport) (bipPath : List Nat)
    (display ed25519 : Bool) (r1 r2 : Buffer) (n m : Nat)
    (hn : bipPath.length ≤ 127) (hseg : ∀ s ∈ bipPath, s < 4294967296)
    (hsend1 : ∀ apdu, send1 [] apdu = .ok r1) (hsend2 : ∀ apdu, send2 [] apdu = .ok r2)
    (h0 : r1.get? 0 = some n) (h1 : r1.get? (1 + n) = some m)
    (hagree : r1.take (1 + n + 1 + m) = r2.take (1 + n + 1 + m)) :
    ∃ apdu result,
      getAddress send1 bipPath display false ed25519 = ([apdu], .ok result) ∧
      getAddress send2 bipPath display false ed25519 = ([apdu], .ok result) ∧
      result.chainCode = none := by
  have h0' : r2.get? 0 = some n := by
    rw [List.get?_eq_getElem?] at h0 ⊢
    rw [← getElem?_agree r1 r2 _ 0 hagree (by omega)]; exact h0
  have h1' : r2.get? (1 + n) = some m := by
    rw [List.get?_eq_getElem?] at h1 ⊢
    rw [← getElem?_agree r1 r2 _ (1 + n) hagree (by omega)]; exact h1
  have e1 := take_drop_agree r1 r2 _ 1 n hagree (by omega)
  have e2 := take_drop_agree r1 r2 _ (1 + n + 1) m hagree (by omega)
  have hp1 := parseAddress_lengths r1 false n m h0 h1
  have hp2 := parseAddress_lengths r2 false n m h0' h1'
  rw [← e1, ← e2] at hp2
  simp only [Bool.false_eq_true, if_false] at hp1 hp2
  refine ⟨_, parseAddress r1 false,
    getAddress_ok send1 bipPath display false ed25519 r1 hn hseg hsend1, ?_, ?_⟩
  · rw [getAddress_ok send2 bipPath display false ed25519 r2 hn hseg hsend2, hp1, hp2]
  · rw [hp1]

/-- C15 at the path [0x8000002c, 0x800001fc, 0x80000000, 0, 0] and the responses
01 aa 01 61 followed by 90 00 and by 11 90 00. -/
theorem C15_witness :
    ∃ apdu result,
      getAddress (fun _ _ => .ok [1, 0xaa, 1, 0x61, 0x90, 0x00])
        [0x8000002c, 0x800001fc, 0x80000000, 0, 0] true false false = ([apdu], .ok result) ∧
      getAddress (fun _ _ => .ok [1, 0xaa, 1, 0x61, 0x11, 0x90, 0x00])
        [0x8000002c, 0x800001fc, 0x80000000, 0, 0] true false false = ([apdu], .ok result) ∧
      result.chainCode = none :=
  C15_no_read_past_address (fun _ _ => .ok [1, 0xaa, 1, 0x61, 0x90, 0x00])
    (fun _ _ => .ok [1, 0xaa, 1, 0x61, 0x11, 0x90, 0x00])
    [0x8000002c, 0x800001fc, 0x80000000, 0, 0] true false
    [1, 0xaa, 1, 0x61, 0x90, 0x00] [1, 0xaa, 1, 0x61, 0x11, 0x90, 0x00] 1 1
    (by decide) (by decide) (fun _ => rfl) (fun _ => rfl) rfl rfl rfl

/-- C16: for every non-empty transaction (path of at most 37 segments,
unsigned 32-bit each, so that packets are built), every transport whose sends
all succeed and every response `r` of at least 2 bytes to the last packet,
`signTransaction` hands all packets to the transport and returns the lowercase
hex of `r` without its last 2 bytes, 2 * (len(r) - 2) hex characters; the
responses to the earlier packets are arbitrary, so the value depends on the
response to the last packet only. -/
theorem C16_signature_from_last_response (send : Transport) (bipPath : List Nat)
    (rawTx : Buffer) (ed25519 : Bool) (r : Buffer)
    (hn : bipPath.length ≤ 37) (hseg : ∀ s ∈ bipPath, s < 4294967296)
    (htx : rawTx ≠ []) (hr : 2 ≤ r.length)
    (hok : ∀ sent apdu, ∃ resp, send sent apdu = .ok resp)
    (hlast : ∀ init last offset,
      signTransactionApdus bipPath rawTx ed25519 = some (.ok (init ++ [last], offset)) →
      send init last = .ok r) :
    ∃ apdus,
      signTransactionApdus bipPath rawTx ed25519 = some (.ok (apdus, (rawTx.length : Int))) ∧
      signTransaction send bipPath rawTx ed25519
        = some (apdus, .ok (toHex (r.take (r.length - 2)))) ∧
      (toHex (r.take (r.length - 2))).length = 2 * (r.length - 2) := by
  have happ := signTransactionApdus_eq bipPath rawTx ed25519 hn hseg
  have hL : rawTx.length ≠ 0 := fun h => htx (List.length_eq_zero.mp h)
  obtain ⟨k, hk⟩ : ∃ k, expectedCount bipPath rawTx = k + 1 :=
    ⟨expectedCount bipPath rawTx - 1, by rw [expectedCount_pos _ _ hL]; omega⟩
  rw [hk, List.range_succ, List.map_append, List.map_singleton] at happ
  have hr0 := hlast _ _ _ happ
  obtain ⟨r1, hsend, _, hr1⟩ := sendAll_all_ok send
    ((List.range k).map (expectedApdu bipPath rawTx (if ed25519 then 0x80 else 0x40))
      ++ [expectedApdu bipPath rawTx (if ed25519 then 0x80 else 0x40) k]) [] []
    (fun j a _ => hok _ a)
  have hr1' := hr1 _ _ rfl
  rw [List.nil_append, hr0] at hr1'
  injection hr1' with hr1'
  subst hr1'
  refine ⟨_, happ, ?_, ?_⟩
  · rw [signTransaction_of_sendAll send bipPath rawTx ed25519 _ _ happ, hsend]
    simp only [List.nil_append]
    rw [slice_strip_status r hr]
  · rw [toHex_length, List.length_take]
    omega

/-- C16 at the path [0x8000002c, 0x800001fc, 0x80000000, 0, 0], a transaction of
300 bytes and a transport that answers every packet with aa bb 90 00. -/
theorem C16_witness :
    ∃ apdus,
      signTransactionApdus [0x8000002c, 0x800001fc, 0x80000000, 0, 0] (List.replicate 300 7) false
        = some (.ok (apdus, ((List.replicate 300 7).length : Int))) ∧
      signTransaction (fun _ _ => .ok [0xaa, 0xbb, 0x90, 0x00])
          [0x8000002c, 0x800001fc, 0x80000000, 0, 0] (List.replicate 300 7) false
        = some (apdus, .ok "aabb") ∧
      ("aabb" : String).length = 2 * (([0xaa, 0xbb, 0x90, 0x00] : Buffer).length - 2) :=
  C16_signature_from_last_response (fun _ _ => .ok [0xaa, 0xbb, 0x90, 0x00])
    [0x8000002c, 0x800001fc, 0x80000000, 0, 0] (List.replicate 300 7) false
    [0xaa, 0xbb, 0x90, 0x00] (by decide) (by decide)
    (List.ne_nil_of_length_pos (by rw [List.length_replicate]; decide)) (by decide)
    (fun _ _ => ⟨_, rfl⟩) (fun _ _ _ _ => rfl)

/-- C17 (as amended): for every path of at most 127 segments (unsigned 32-bit
each) and every combination of the display, chainCode and ed25519 flags,
`getAddress` hands exactly one packet to the transport, with class 0xE0,
instruction 0x02, param1 = 0x01 if display else 0x00 and
param2 = (0x80 if ed25519 else 0x40) OR (0x01 if chainCode else 0x00), which
is one of 0x40, 0x41, 0x80, 0x81. -/
theorem C17_address_request (send : Transport) (bipPath : List Nat)
    (display chainCode ed25519 : Bool)
    (hn : bipPath.length ≤ 127) (hseg : ∀ s ∈ bipPath, s < 4294967296) :
    ∃ apdu outcome,
      getAddress send bipPath display chainCode ed25519 = ([apdu], outcome) ∧
      apdu.cla = 0xe0 ∧ apdu.ins = 0x02 ∧
      apdu.p1 = (if display then 0x01 else 0x00) ∧
      apdu.p2 = ((if ed25519 then 0x80 else 0x40) ||| (if chainCode then 0x01 else 0x00)) ∧
      (apdu.p2 = 0x40 ∨ apdu.p2 = 0x41 ∨ apdu.p2 = 0x80 ∨ apdu.p2 = 0x81) := by
  obtain ⟨outcome, hres⟩ := getAddress_sent send bipPath display chainCode ed25519 _
    (getAddressApdu_eq bipPath display chainCode ed25519 hn hseg)
  refine ⟨_, outcome, hres, rfl, rfl, rfl, rfl, ?_⟩
  cases ed25519 <;> cases chainCode <;> simp

/-- C17 at the path [0x8000002c, 0x800001fc, 0x80000000, 0, 0] with display and
chainCode set. -/
theorem C17_witness :
    ([0x8000002c, 0x800001fc, 0x80000000, 0, 0] : List Nat).length ≤ 127 ∧
    (∀ s ∈ ([0x8000002c, 0x800001fc, 0x80000000, 0, 0] : List Nat), s < 4294967296) ∧
    ∃ apdu outcome,
      getAddress (fun _ _ => .ok [0x90, 0x00]) [0x8000002c, 0x800001fc, 0x80000000, 0, 0]
        true true false = ([apdu], outcome) ∧
      apdu.cla = 0xe0 ∧ apdu.ins = 0x02 ∧
      apdu.p1 = (if true then 0x01 else 0x00) ∧
      apdu.p2 = ((if false then 0x80 else 0x40) ||| (if true then 0x01 else 0x00)) ∧
      (apdu.p2 = 0x40 ∨ apdu.p2 = 0x41 ∨ apdu.p2 = 0x80 ∨ apdu.p2 = 0x81) :=
  ⟨by decide, by decide,
    C17_address_request (fun _ _ => .ok [0x90, 0x00])
      [0x8000002c, 0x800001fc, 0x80000000, 0, 0] true true false (by decide) (by decide)⟩

/-- C17 (as stated) fails: for a path of 200 segments `getAddress` hands no
packet to the transport. -/
theorem C17_counterexample :
    ¬ ∃ apdu outcome, getAddress (fun _ _ => .ok [0x90, 0x00]) (List.replicate 200 1)
        true false true = ([apdu], outcome) := by
  rintro ⟨apdu, outcome, h⟩
  rw [getAddress_rangeError _ _ _ _ _ (by rw [List.length_replicate]; omega)] at h
  simp at h

/-- C18: for every response of at least 4 bytes, `getAppConfiguration` hands
one packet (class 0xE0, instruction 0x06, both parameters 0, no payload) to the
transport and returns version = decimal(byte 1) + "." + decimal(byte 2) + "."
+ decimal(byte 3); byte 0 and the bytes after byte 3 do not occur in the
result. -/
theorem C18_version_string (send : Transport) (b0 b1 b2 b3 : Nat) (rest : Buffer)
    (hsend : ∀ apdu, send [] apdu = .ok (b0 :: b1 :: b2 :: b3 :: rest)) :
    getAppConfiguration send
      = ([{ cla := 0xe0, ins := 0x06, p1 := 0x00, p2 := 0x00, data := [] }],
         .ok { version := Nat.repr b1 ++ "." ++ Nat.repr b2 ++ "." ++ Nat.repr b3 }) := by
  unfold getAppConfiguration
  dsimp only
  rw [hsend]
  simp [byteAt, numToString]

/-- C18 at the response 00 01 02 03: the version is 1.2.3. -/
theorem C18_witness :
    getAppConfiguration (fun _ _ => .ok [0x00, 0x01, 0x02, 0x03])
      = ([{ cla := 0xe0, ins := 0x06, p1 := 0x00, p2 := 0x00, data := [] }],
         .ok { version := "1.2.3" }) :=
  C18_version_string (fun _ _ => .ok [0x00, 0x01, 0x02, 0x03]) 0 1 2 3 [] (fun _ => rfl)

/-- C19: for every `signTransaction` call that builds packets (path of at most
37 segments, unsigned 32-bit each), the packets are handed to the transport in
index order: when every send succeeds all of them are handed over and a
signature is returned; when the send of the packet at index `i` is the first to
fail, `signTransaction` fails with that same error, returns no signature, and
the packets handed over are exactly those of index 0 to `i`.  The transport may
answer by the packet alone or also by the packets it received before. -/
theorem C19_send_failure_propagates (bipPath : List Nat) (rawTx : Buffer) (ed25519 : Bool)
    (hn : bipPath.length ≤ 37) (hseg : ∀ s ∈ bipPath, s < 4294967296) :
    ∃ apdus : List Apdu,
      signTransactionApdus bipPath rawTx ed25519 = some (.ok (apdus, (rawTx.length : Int))) ∧
      ∀ send : Transport,
        ((∀ j a, apdus[j]? = some a → ∃ resp, send (apdus.take j) a = .ok resp) →
          ∃ signature, signTransaction send bipPath rawTx ed25519
            = some (apdus, .ok signature)) ∧
        (∀ i a e, apdus[i]? = some a →
          (∀ j b, j < i → apdus[j]? = some b → ∃ resp, send (apdus.take j) b = .ok resp) →
          send (apdus.take i) a = .error e →
          signTransaction send bipPath rawTx ed25519
            = some (apdus.take (i + 1), .error (.transport e))) := by
  have happ := signTransactionApdus_eq bipPath rawTx ed25519 hn hseg
  refine ⟨_, happ, ?_⟩
  intro send
  constructor
  · intro hok
    obtain ⟨r, hsend, _, _⟩ := sendAll_all_ok send _ [] []
      (fun j a hj => by simpa using hok j a hj)
    rw [signTransaction_of_sendAll send bipPath rawTx ed25519 _ _ happ, hsend]
    simp only [List.nil_append]
    exact ⟨_, rfl⟩
  · intro i a e hi hok hfail
    have hsend := sendAll_fail send _ [] [] i a e hi
      (fun j b hj hb => by simpa using hok j b hj hb) (by simpa using hfail)
    rw [signTransaction_of_sendAll send bipPath rawTx ed25519 _ _ happ, hsend]
    simp

/-- C19 at the path [0x8000002c, 0x800001fc, 0x80000000, 0, 0] and a transaction
of 300 bytes. -/
theorem C19_witness :
    ([0x8000002c, 0x800001fc, 0x80000000, 0, 0] : List Nat).length ≤ 37 ∧
    (∀ s ∈ ([0x8000002c, 0x800001fc, 0x80000000, 0, 0] : List Nat), s < 4294967296) ∧
    ∃ apdus : List Apdu,
      signTransactionApdus [0x8000002c, 0x800001fc, 0x80000000, 0, 0] (List.replicate 300 7) false
        = some (.ok (apdus, ((List.replicate 300 7).length : Int))) ∧
      ∀ send : Transport,
        ((∀ j a, apdus[j]? = some a → ∃ resp, send (apdus.take j) a = .ok resp) →
          ∃ signature, signTransaction send [0x8000002c, 0x800001fc, 0x80000000, 0, 0]
            (List.replicate 300 7) false = some (apdus, .ok signature)) ∧
        (∀ i a e, apdus[i]? = some a →
          (∀ j b, j < i → apdus[j]? = some b → ∃ resp, send (apdus.take j) b = .ok resp) →
          send (apdus.take i) a = .error e →
          signTransaction send [0x8000002c, 0x800001fc, 0x80000000, 0, 0]
            (List.replicate 300 7) false
            = some (apdus.take (i + 1), .error (.transport e))) :=
  ⟨by decide, by decide,
    C19_send_failure_propagates [0x8000002c, 0x800001fc, 0x80000000, 0, 0]
      (List.replicate 300 7) false (by decide) (by decide)⟩

/-- C20: for every path of at most 37 segments (unsigned 32-bit each) and every
transaction, removing the first 1 + 4 * segmentCount bytes from the payload of
the first packet and concatenating the payloads of all packets
`signTransaction` builds, in order, gives back exactly the transaction
bytes. -/
theorem C20_reassembly (bipPath : List Nat) (rawTx : Buffer) (ed25519 : Bool)
    (hn : bipPath.length ≤ 37) (hseg : ∀ s ∈ bipPath, s < 4294967296) :
    ∃ apdus : List Apdu,
      signTransactionApdus bipPath rawTx ed25519 = some (.ok (apdus, (rawTx.length : Int))) ∧
      reassemble bipPath apdus = rawTx := by
  refine ⟨_, signTransactionApdus_eq bipPath rawTx ed25519 hn hseg, ?_⟩
  by_cases hL : rawTx.length = 0
  · have hnil : rawTx = [] := List.length_eq_zero.mp hL
    subst hnil
    simp [expectedCount, reassemble]
  · have hcount := expectedCount_pos bipPath rawTx hL
    rw [hcount, List.range_succ_eq_map, List.map_cons, List.map_map]
    simp only [reassemble, List.map_map]
    have hfirst : (expectedApdu bipPath rawTx (if ed25519 then 0x80 else 0x40) 0).data.drop
        (1 + bipPath.length * 4) = rawTx.take (149 - bipPath.length * 4) := by
      simp only [expectedApdu, if_true]
      exact List.drop_left' (specEncodePath_length bipPath)
    have hlater : ((fun a : Apdu => a.data)
        ∘ expectedApdu bipPath rawTx (if ed25519 then 0x80 else 0x40) ∘ Nat.succ)
        = fun i => ((rawTx.drop (149 - bipPath.length * 4)).drop (150 * i)).take 150 := by
      funext i
      simp [expectedApdu, List.drop_drop]
    have hall : (rawTx.drop (149 - bipPath.length * 4)).take
        (150 * ((rawTx.length - (149 - bipPath.length * 4) + 149) / 150))
        = rawTx.drop (149 - bipPath.length * 4) :=
      List.take_of_length_le (by rw [List.length_drop]; omega)
    rw [hfirst, hlater, flatten_chunks, hall, List.take_append_drop]

/-- C20 at the path [0x8000002c, 0x800001fc, 0x80000000, 0, 0] and a transaction
of 300 bytes. -/
theorem C20_witness :
    ([0x8000002c, 0x800001fc, 0x80000000, 0, 0] : List Nat).length ≤ 37 ∧
    (∀ s ∈ ([0x8000002c, 0x800001fc, 0x80000000, 0, 0] : List Nat), s < 4294967296) ∧
    ∃ apdus : List Apdu,
      signTransactionApdus [0x8000002c, 0x800001fc, 0x80000000, 0, 0] (List.replicate 300 7) true
        = some (.ok (apdus, ((List.replicate 300 7).length : Int))) ∧
      reassemble [0x8000002c, 0x800001fc, 0x80000000, 0, 0] apdus = List.replicate 300 7 :=
  ⟨by decide, by decide,
    C20_reassembly [0x8000002c, 0x800001fc, 0x80000000, 0, 0] (List.replicate 300 7) true
      (by decide) (by decide)⟩

end Elrond
